import Mathlib

/-!
# Verification of a Sudoku solver

Shallow embedding of the `sudoku-solver` program (`src/main.rs`) and proofs
of properties stated in its specification.

The program's data model:
* `Cell` is either `Solved(v)` or `NotSolved(candidate set)`, where the
  candidate set is a `BTreeSet<u8>`.  A `BTreeSet` is an ordered set; every
  set the program ever builds is obtained from the full set `{1,…,9}` by
  erasures only, so we model it faithfully as a strictly sorted `List Nat`
  (initially `[1,…,9]`, shrunk only by `List.erase`).  Iteration order of a
  `BTreeSet` is ascending, which is list order here.
* `Board` is a vector of 81 cells, row-major; we model it as `List Cell`,
  with all accesses at indices `0 ≤ i < 81`.

The recursive functions `solve`/`depth_first_search` and the loop in
`eliminate` are modelled with an explicit fuel parameter; `2*81 + 2 = 164`
units of fuel are more than any run can consume (each level of the
`solve → depth_first_search → solve` recursion strictly decreases the
number of `NotSolved` cells, of which there are at most 81).
-/

/-- `Cell`: `NotSolved(BTreeSet<u8>)` or `Solved(u8)` from the source.
The `BTreeSet` is rendered as its sorted element list. -/
inductive Cell where
  | notSolved (hints : List Nat)
  | solved (n : Nat)
deriving DecidableEq, Repr

/-- A board is the vector of 81 cells (`Board(Vec<Cell>)` in the source). -/
abbrev Board := List Cell

/-- Indexing `board[i]`; every access the program makes is in range. -/
def getCell (b : Board) (i : Nat) : Cell := b.getD i (Cell.solved 0)

instance {e a : Type} [DecidableEq e] [DecidableEq a] : DecidableEq (Except e a) := fun x y =>
  match x, y with
  | .ok u, .ok v => decidable_of_iff (u = v) (by simp)
  | .error u, .error v => decidable_of_iff (u = v) (by simp)
  | .ok _, .error _ => isFalse (by simp)
  | .error _, .ok _ => isFalse (by simp)

/-- Is this cell `Solved`? -/
def Cell.isSolved : Cell → Bool
  | .solved _ => true
  | .notSolved _ => false

/-- Row indices of the cell `i`: `(row*9)..((row+1)*9)`. -/
def rowIdxs (i : Nat) : List Nat := List.range' (i / 9 * 9) 9

/-- Column indices of the cell `i`: `(col..81).step_by(9)`. -/
def colIdxs (i : Nat) : List Nat := List.range' (i % 9) 9 9

/-- Block indices of the cell `i`: the 3×3 region around it,
`row/3*3 ≤ r < row/3*3+3`, `col/3*3 ≤ c < col/3*3+3`, in the
row-major order the source's two nested loops produce. -/
def blockIdxs (i : Nat) : List Nat :=
  (List.range' (i / 9 / 3 * 3) 3).flatMap fun r =>
    (List.range' (i % 9 / 3 * 3) 3).map fun c => r * 9 + c

/-- `j` is a row, column or block peer index of `i` (the three index lists
the source's scans visit for cell `i`). -/
def Peer (i j : Nat) : Prop := j ∈ rowIdxs i ∨ j ∈ colIdxs i ∨ j ∈ blockIdxs i

/-- `hints.remove(&answer)` on the cell at index `j` when it is `NotSolved`
(a no-op on `Solved` cells), as in the source's elimination scan. -/
def eraseHint (b : Board) (j ans : Nat) : Board :=
  match getCell b j with
  | .notSolved hints => b.set j (.notSolved (hints.erase ans))
  | .solved _ => b

/-- Erase `ans` from the candidate sets at all the listed indices. -/
def eraseHints (b : Board) (idxs : List Nat) (ans : Nat) : Board :=
  idxs.foldl (fun b j => eraseHint b j ans) b

/-- One step of the solved-scan: if `board[i]` is `Solved(answer)`, remove
`answer` from the candidate sets of the row, column and block peers of `i`
(in the source's order: row loop, column loop, block double loop). -/
def pass1Step (b : Board) (i : Nat) : Board :=
  match getCell b i with
  | .solved answer =>
      eraseHints (eraseHints (eraseHints b (rowIdxs i) answer) (colIdxs i) answer)
        (blockIdxs i) answer
  | .notSolved _ => b

/-- The solved-scan of `eliminate`: the `for i in 0..81` loop that subtracts
every `Solved` value from peer candidate sets. -/
def eliminatePass1 (b : Board) : Board := (List.range 81).foldl pass1Step b

/-- The `solved` flag computed along the solved-scan: true iff no cell was
found `NotSolved` (the scan never promotes, so this is a property of the
board). -/
def allSolved (b : Board) : Bool := (List.range 81).all fun i => (getCell b i).isSolved

/-- First `Solved` peer among `idxs` carrying the value `hint`, if any
(the source's `matches!(board[i], Cell::Solved(n) if n == hint)` scans). -/
def findDup (b : Board) (idxs : List Nat) (hint : Nat) : Option Nat :=
  idxs.find? fun j =>
    match getCell b j with
    | .solved n => n == hint
    | .notSolved _ => false

/-- One step of the promotion-scan at index `i`, threading the board and the
`changed` flag, failing exactly where the source returns `Err`:
empty candidate set → "unsolvable cell", a `Solved` row/column/block peer
already carrying the singleton candidate → "duplicate cell" (the block scan
reports the peer as a `(col, row)` pair). -/
def pass2Step (s : Board × Bool) (i : Nat) : Except String (Board × Bool) :=
  match getCell s.1 i with
  | .solved _ => .ok s
  | .notSolved hints =>
    if hints.isEmpty then .error s!"unsolvable cell at {i}"
    else if hints.length != 1 then .ok s
    else
      let hint := hints.headD 0
      match findDup s.1 (rowIdxs i) hint with
      | some j => .error s!"duplicate cell at {j}"
      | none =>
      match findDup s.1 (colIdxs i) hint with
      | some j => .error s!"duplicate cell at {j}"
      | none =>
      match findDup s.1 (blockIdxs i) hint with
      | some j => .error s!"duplicate cell at ({j % 9}, {j / 9})"
      | none => .ok (s.1.set i (.solved hint), true)

/-- The promotion-scan of `eliminate`: the second `for i in 0..81` loop,
promoting newly-singleton candidate sets, starting from `changed = false`. -/
def eliminatePass2 (b : Board) : Except String (Board × Bool) :=
  (List.range 81).foldlM pass2Step (b, false)

/-- One iteration of `eliminate`'s outer `loop`: run the solved-scan; if
every cell is solved return `(board, true)`; otherwise run the
promotion-scan and either stall with `(board, false)`, ask for another
iteration on the changed board (`Sum.inr`), or propagate its error. -/
def eliminateStep (b : Board) : Except String (Board × Bool ⊕ Board) :=
  if allSolved (eliminatePass1 b) then .ok (.inl (eliminatePass1 b, true))
  else
    match eliminatePass2 (eliminatePass1 b) with
    | .error e => .error e
    | .ok (b2, changed) => if changed then .ok (.inr b2) else .ok (.inl (b2, false))

/-- `eliminate`'s outer `loop`, with fuel: iterate `eliminateStep` until it
returns a result (`Sum.inl`) or fails; `Sum.inr` means "run another
iteration".  The recursion is written with `Nat.rec` and `Except.bind` so
that one loop unfolding is a single iota step. -/
def eliminateF (fuel : Nat) : Board → Except String (Board × Bool) :=
  Nat.rec (motive := fun _ => Board → Except String (Board × Bool))
    (fun _ => .error "fuel exhausted")
    (fun _ rec b =>
      (eliminateStep b).bind (Sum.elim (fun r => .ok r) (fun b2 => rec b2)))
    fuel

/-- `eliminate` from the source; 82 rounds of fuel always suffice because
every repeated round has strictly fewer `NotSolved` cells (of at most 81). -/
def eliminate (b : Board) : Except String (Board × Bool) := eliminateF 82 b

/-- One step of the cell-selection loop of `depth_first_search`: keep the
current best `(index, hints)` unless the scanned cell is `NotSolved` with a
strictly smaller candidate set (so ties keep the earliest index). -/
def selStep (acc : Option (Nat × List Nat)) (p : Nat × Cell) : Option (Nat × List Nat) :=
  match p.2 with
  | .notSolved h =>
    match acc with
    | none => some (p.1, h)
    | some q => if h.length < q.2.length then some (p.1, h) else acc
  | .solved _ => acc

def selectCell (b : Board) : Option (Nat × List Nat) := b.enum.foldl selStep none

/-- The `for hint in hints` loop of `depth_first_search`: clone the board,
assume `cell(i) = hint`, recursively solve (the recursive `solve` is the
parameter `f`); return the first success, fall through to the next
candidate on failure, and fail with "all assumptions contradicted" when
the candidates are exhausted. -/
def tryHints (f : Board → Except String Board) (b : Board) (i : Nat)
    (hints : List Nat) : Except String Board :=
  List.rec (motive := fun _ => Except String Board)
    (.error "all assumptions contradicted")
    (fun hint _ rec =>
      match f (b.set i (.solved hint)) with
      | .ok b2 => .ok b2
      | .error _ => rec)
    hints

/-- `depth_first_search` from the source, parameterised by the recursive
`solve` it invokes: select the minimum-candidate `NotSolved` cell; if none
the board is already solved; otherwise try its candidates in order. -/
def dfsWith (f : Board → Except String Board) (b : Board) : Except String Board :=
  match selectCell b with
  | none => .ok b
  | some (i, hints) => tryHints f b i hints

/-- `solve` from the source, with fuel: run `eliminate`; on a full solution
return the board, on a stall hand over to `depth_first_search`, on an error
propagate it.  (Recursion written with `Nat.rec` and `Except.bind` so that
one unfolding is a single iota step.) -/
def solveF (fuel : Nat) : Board → Except String Board :=
  Nat.rec (motive := fun _ => Board → Except String Board)
    (fun _ => .error "fuel exhausted")
    (fun _ rec b =>
      (eliminate b).bind (fun p => if p.2 then .ok p.1 else dfsWith rec p.1))
    fuel

/-- `solve` from the source.  The fuel `164 = 2*81 + 2` is never exhausted:
each `solve → depth_first_search → solve` round trip costs two units and
strictly decreases the number of `NotSolved` cells, which is at most 81. -/
def solve (b : Board) : Except String Board := solveF 164 b

/-- `depth_first_search` from the source, at the same inexhaustible fuel. -/
def depth_first_search (b : Board) : Except String Board := dfsWith (solveF 164) b

/-- `Cell::from(u8)` from the source: `0` becomes `NotSolved` with all nine
candidates (`(1..=9).collect()`), `1..=9` becomes `Solved`; any other value
panics, modelled as `none`. -/
def cellFrom (n : Nat) : Option Cell :=
  if n = 0 then some (.notSolved (List.range' 1 9))
  else if n ≤ 9 then some (.solved n)
  else none

/-- The digit-extraction filter of `open`: keep bytes `0x30..=0x39`, mapped
to their digit value. -/
def extractDigits (bytes : List Nat) : List Nat :=
  bytes.filterMap fun b => if 0x30 ≤ b ∧ b ≤ 0x39 then some (b - 0x30) else none

/-- `open` from the source, on an already-read byte stream: filter the
digit bytes, build cells, and require exactly 81 of them — any other count
is the `InvalidData` error (modelled as `Except Unit`).  The outer `Option`
is `none` exactly when `Cell::from` would panic, which cannot happen on
extracted digits. -/
def openBytes (bytes : List Nat) : Option (Except Unit Board) :=
  ((extractDigits bytes).mapM cellFrom).map fun cells =>
    if cells.length = 81 then .ok cells else .error ()

/-- Number of `NotSolved` cells on the board (the measure that shrinks as
the program runs). -/
def countNS (b : Board) : Nat := b.countP fun c => !c.isSolved

/-- Erase `v` from `acc` when `p` holds (one conditional candidate
erasure, used to restate the solved-scan cell by cell). -/
def eraseIf (p : Prop) [Decidable p] (acc : List Nat) (v : Nat) : List Nat :=
  if p then acc.erase v else acc

/-- The effect of the solved-scan step for cell `j` on the candidate list
`acc` of cell `i`: if `board[j]` is `Solved(v)`, erase `v` once for each of
the row, column and block scans of `j` that visit `i`. -/
def pass1CellStep (b : Board) (i : Nat) (acc : List Nat) (j : Nat) : List Nat :=
  match getCell b j with
  | .solved v =>
      eraseIf (i ∈ blockIdxs j) (eraseIf (i ∈ colIdxs j) (eraseIf (i ∈ rowIdxs j) acc v) v) v
  | .notSolved _ => acc

/-- The candidate list of cell `i` after the solved-scan visits the cells
in `l`, starting from `acc`. -/
def pass1Cell (b : Board) (i : Nat) (acc : List Nat) (l : List Nat) : List Nat :=
  l.foldl (pass1CellStep b i) acc

/-- The cell the full solved-scan leaves at index `i`. -/
def pass1CellSpec (b : Board) (i : Nat) : Cell :=
  match getCell b i with
  | .solved v => .solved v
  | .notSolved h => .notSolved (pass1Cell b i h (List.range 81))

/-- `Shrinks b b'`: the length is unchanged, `Solved` cells of `b` survive
with their value, and every `NotSolved` cell of `b'` was `NotSolved` in `b`
with its candidate list a sublist of the old one.  Every board mutation the
program performs (candidate erasure, promotion, trial assignment) shrinks
the board in this sense. -/
def Shrinks (b b' : Board) : Prop :=
  b'.length = b.length ∧
  ∀ i, (∀ v, getCell b i = .solved v → getCell b' i = .solved v) ∧
    (∀ h', getCell b' i = .notSolved h' → ∃ h, getCell b i = .notSolved h ∧ h'.Sublist h)


/-- The candidate list of a cell, with a `Solved` cell viewed as the
singleton of its value (used to state board well-formedness and solution
compatibility uniformly). -/
def hintsOf : Cell → List Nat
  | .notSolved h => h
  | .solved n => [n]

/-- The value of a `Solved` cell (0 for an `Undetermined` one). -/
def cellVal : Cell → Nat
  | .notSolved _ => 0
  | .solved n => n

/-- Representation invariant of a board as built by this program: 81 cells,
every candidate list strictly sorted (a `BTreeSet` iterates in strictly
increasing order), and every value in `1..=9`. -/
def BoardWF (b : Board) : Prop :=
  b.length = 81 ∧ ∀ i < 81,
    List.Sorted (· < ·) (hintsOf (getCell b i)) ∧
    ∀ v ∈ hintsOf (getCell b i), 1 ≤ v ∧ v ≤ 9

/-- No two `Solved` peers carry the same value. -/
def NoConflicts (b : Board) : Prop :=
  ∀ i < 81, ∀ j < 81, i ≠ j → Peer i j →
    (getCell b i).isSolved = true → getCell b i ≠ getCell b j

/-- Candidate sets exclude the values of all `Solved` peers (the
specification's propagation invariant). -/
def Excluded (b : Board) : Prop :=
  ∀ i < 81, ∀ j < 81, (getCell b i).isSolved = false → j ≠ i → Peer i j →
    (getCell b j).isSolved = true → cellVal (getCell b j) ∉ hintsOf (getCell b i)

/-- `X` is a fully solved, conflict-free board with all values in `1..=9`. -/
def ValidComplete (X : Board) : Prop :=
  X.length = 81 ∧ allSolved X = true ∧ NoConflicts X ∧
    ∀ i < 81, 1 ≤ cellVal (getCell X i) ∧ cellVal (getCell X i) ≤ 9

/-- Every cell of `X` is permitted by the board `b`: it repeats `b`'s fixed
values and picks one of the candidates of each `Undetermined` cell. -/
def Extends (X b : Board) : Prop :=
  ∀ i < 81, cellVal (getCell X i) ∈ hintsOf (getCell b i)

/-- `X` is a solution of the puzzle `b`. -/
def Solves (X b : Board) : Prop := ValidComplete X ∧ Extends X b

/-- The multiset of values a unit (row, column or block index list) holds. -/
def unitVals (b : Board) (idxs : List Nat) : List Nat :=
  idxs.map fun j => cellVal (getCell b j)

instance (i j : Nat) : Decidable (Peer i j) := by
  unfold Peer
  infer_instance

instance (b : Board) : Decidable (BoardWF b) := by
  unfold BoardWF
  exact instDecidableAnd

instance (b : Board) : Decidable (NoConflicts b) := by
  unfold NoConflicts
  exact Nat.decidableBallLT _ _

instance (b : Board) : Decidable (Excluded b) := by
  unfold Excluded
  exact @Nat.decidableBallLT 81 _ fun i hi => Nat.decidableBallLT _ _

instance (X : Board) : Decidable (ValidComplete X) := by
  unfold ValidComplete
  exact instDecidableAnd

instance (X b : Board) : Decidable (Extends X b) := by
  unfold Extends
  exact Nat.decidableBallLT _ _

instance (X b : Board) : Decidable (Solves X b) := by
  unfold Solves
  exact instDecidableAnd

/-! ## Concrete inputs: the specification's end-to-end example -/

/-- The bytes of a string (the byte stream `open` reads). -/
def strDigits (s : String) : List Nat := s.toList.map Char.toNat

/-- The canonical example puzzle, all 81 digits. -/
def canonInputStr : String :=
  "530070000600195000098000060800060003400803001700020006060000280000419005000080079"

/-- The example input string exactly as the specification prints it. -/
def specInputStr : String :=
  "530070000600195000098000060800060003400803001700020006060000280000419005000080"

/-- The completion of the canonical example puzzle. -/
def canonSolStr : String :=
  "534678912672195348198342567859761423426853791713924856961537284287419635345286179"

/-- The completion string exactly as the specification prints it. -/
def specSolStr : String :=
  "534678912672195348198342567859761423426853791713924856961537284287419635345286071"

/-- The board a digit list denotes (`0` undetermined, `1..=9` solved),
matching what `open` builds from those digits. -/
def boardOfDigits (ds : List Nat) : Board :=
  ds.map fun d => if d = 0 then Cell.notSolved (List.range' 1 9) else Cell.solved d

/-- The canonical example puzzle as a board. -/
def canonBoard : Board := boardOfDigits (extractDigits (strDigits canonInputStr))

/-- The canonical example's solved board. -/
def canonSolBoard : Board := boardOfDigits (extractDigits (strDigits canonSolStr))

/-- The canonical solved board with cell 1 overwritten by a second `5`:
cells 0 and 1 are row (and block) peers both fixed to `5`. -/
def dupBoard : Board := canonSolBoard.set 1 (Cell.solved 5)

/-- A stalled board: every cell undetermined with candidates `{1,2,3}`,
except cell 40 which has the strictly smaller set `{4,7}`. -/
def mrvBoard : Board :=
  (List.replicate 81 (Cell.notSolved [1, 2, 3])).set 40 (Cell.notSolved [4, 7])

/-- The canonical puzzle as an explicit cell list. -/
def cB0 : Board := [Cell.solved 5, Cell.solved 3, Cell.notSolved [1, 2, 3, 4, 5, 6, 7, 8, 9], Cell.notSolved [1, 2, 3, 4, 5, 6, 7, 8, 9], Cell.solved 7, Cell.notSolved [1, 2, 3, 4, 5, 6, 7, 8, 9], Cell.notSolved [1, 2, 3, 4, 5, 6, 7, 8, 9], Cell.notSolved [1, 2, 3, 4, 5, 6, 7, 8, 9], Cell.notSolved [1, 2, 3, 4, 5, 6, 7, 8, 9], Cell.solved 6, Cell.notSolved [1, 2, 3, 4, 5, 6, 7, 8, 9], Cell.notSolved [1, 2, 3, 4, 5, 6, 7, 8, 9], Cell.solved 1, Cell.solved 9, Cell.solved 5, Cell.notSolved [1, 2, 3, 4, 5, 6, 7, 8, 9], Cell.notSolved [1, 2, 3, 4, 5, 6, 7, 8, 9], Cell.notSolved [1, 2, 3, 4, 5, 6, 7, 8, 9], Cell.notSolved [1, 2, 3, 4, 5, 6, 7, 8, 9], Cell.solved 9, Cell.solved 8, Cell.notSolved [1, 2, 3, 4, 5, 6, 7, 8, 9], Cell.notSolved [1, 2, 3, 4, 5, 6, 7, 8, 9], Cell.notSolved [1, 2, 3, 4, 5, 6, 7, 8, 9], Cell.notSolved [1, 2, 3, 4, 5, 6, 7, 8, 9], Cell.solved 6, Cell.notSolved [1, 2, 3, 4, 5, 6, 7, 8, 9], Cell.solved 8, Cell.notSolved [1, 2, 3, 4, 5, 6, 7, 8, 9], Cell.notSolved [1, 2, 3, 4, 5, 6, 7, 8, 9], Cell.notSolved [1, 2, 3, 4, 5, 6, 7, 8, 9], Cell.solved 6, Cell.notSolved [1, 2, 3, 4, 5, 6, 7, 8, 9], Cell.notSolved [1, 2, 3, 4, 5, 6, 7, 8, 9], Cell.notSolved [1, 2, 3, 4, 5, 6, 7, 8, 9], Cell.solved 3, Cell.solved 4, Cell.notSolved [1, 2, 3, 4, 5, 6, 7, 8, 9], Cell.notSolved [1, 2, 3, 4, 5, 6, 7, 8, 9], Cell.solved 8, Cell.notSolved [1, 2, 3, 4, 5, 6, 7, 8, 9], Cell.solved 3, Cell.notSolved [1, 2, 3, 4, 5, 6, 7, 8, 9], Cell.notSolved [1, 2, 3, 4, 5, 6, 7, 8, 9], Cell.solved 1, Cell.solved 7, Cell.notSolved [1, 2, 3, 4, 5, 6, 7, 8, 9], Cell.notSolved [1, 2, 3, 4, 5, 6, 7, 8, 9], Cell.notSolved [1, 2, 3, 4, 5, 6, 7, 8, 9], Cell.solved 2, Cell.notSolved [1, 2, 3, 4, 5, 6, 7, 8, 9], Cell.notSolved [1, 2, 3, 4, 5, 6, 7, 8, 9], Cell.notSolved [1, 2, 3, 4, 5, 6, 7, 8, 9], Cell.solved 6, Cell.notSolved [1, 2, 3, 4, 5, 6, 7, 8, 9], Cell.solved 6, Cell.notSolved [1, 2, 3, 4, 5, 6, 7, 8, 9], Cell.notSolved [1, 2, 3, 4, 5, 6, 7, 8, 9], Cell.notSolved [1, 2, 3, 4, 5, 6, 7, 8, 9], Cell.notSolved [1, 2, 3, 4, 5, 6, 7, 8, 9], Cell.solved 2, Cell.solved 8, Cell.notSolved [1, 2, 3, 4, 5, 6, 7, 8, 9], Cell.notSolved [1, 2, 3, 4, 5, 6, 7, 8, 9], Cell.notSolved [1, 2, 3, 4, 5, 6, 7, 8, 9], Cell.notSolved [1, 2, 3, 4, 5, 6, 7, 8, 9], Cell.solved 4, Cell.solved 1, Cell.solved 9, Cell.notSolved [1, 2, 3, 4, 5, 6, 7, 8, 9], Cell.notSolved [1, 2, 3, 4, 5, 6, 7, 8, 9], Cell.solved 5, Cell.notSolved [1, 2, 3, 4, 5, 6, 7, 8, 9], Cell.notSolved [1, 2, 3, 4, 5, 6, 7, 8, 9], Cell.notSolved [1, 2, 3, 4, 5, 6, 7, 8, 9], Cell.notSolved [1, 2, 3, 4, 5, 6, 7, 8, 9], Cell.solved 8, Cell.notSolved [1, 2, 3, 4, 5, 6, 7, 8, 9], Cell.notSolved [1, 2, 3, 4, 5, 6, 7, 8, 9], Cell.solved 7, Cell.solved 9]

/-- The canonical run, solved-scan result of round 1. -/
def pB1 : Board := [Cell.solved 5, Cell.solved 3, Cell.notSolved [1, 2, 4], Cell.notSolved [2, 6], Cell.solved 7, Cell.notSolved [2, 4, 6, 8], Cell.notSolved [1, 4, 8, 9], Cell.notSolved [1, 2, 4, 9], Cell.notSolved [2, 4, 8], Cell.solved 6, Cell.notSolved [2, 4, 7], Cell.notSolved [2, 4, 7], Cell.solved 1, Cell.solved 9, Cell.solved 5, Cell.notSolved [3, 4, 7, 8], Cell.notSolved [2, 3, 4], Cell.notSolved [2, 4, 7, 8], Cell.notSolved [1, 2], Cell.solved 9, Cell.solved 8, Cell.notSolved [2, 3], Cell.notSolved [3, 4], Cell.notSolved [2, 4], Cell.notSolved [1, 3, 4, 5, 7], Cell.solved 6, Cell.notSolved [2, 4, 7], Cell.solved 8, Cell.notSolved [1, 2, 5], Cell.notSolved [1, 2, 5, 9], Cell.notSolved [5, 7, 9], Cell.solved 6, Cell.notSolved [1, 4, 7], Cell.notSolved [4, 5, 7, 9], Cell.notSolved [2, 4, 5, 9], Cell.solved 3, Cell.solved 4, Cell.notSolved [2, 5], Cell.notSolved [2, 5, 6, 9], Cell.solved 8, Cell.notSolved [5], Cell.solved 3, Cell.notSolved [5, 7, 9], Cell.notSolved [2, 5, 9], Cell.solved 1, Cell.solved 7, Cell.notSolved [1, 5], Cell.notSolved [1, 3, 5, 9], Cell.notSolved [5, 9], Cell.solved 2, Cell.notSolved [1, 4], Cell.notSolved [4, 5, 8, 9], Cell.notSolved [4, 5, 9], Cell.solved 6, Cell.notSolved [1, 3, 9], Cell.solved 6, Cell.notSolved [1, 3, 4, 5, 7, 9], Cell.notSolved [3, 5, 7], Cell.notSolved [3, 5], Cell.notSolved [7], Cell.solved 2, Cell.solved 8, Cell.notSolved [4], Cell.notSolved [2, 3], Cell.notSolved [2, 7, 8], Cell.notSolved [2, 3, 7], Cell.solved 4, Cell.solved 1, Cell.solved 9, Cell.notSolved [3, 6], Cell.notSolved [3], Cell.solved 5, Cell.notSolved [1, 2, 3], Cell.notSolved [1, 2, 4, 5], Cell.notSolved [1, 2, 3, 4, 5], Cell.notSolved [2, 3, 5, 6], Cell.solved 8, Cell.notSolved [2, 6], Cell.notSolved [1, 3, 4, 6], Cell.solved 7, Cell.solved 9]

/-- The canonical run, board after the promotions of round 1. -/
def qB1 : Board := [Cell.solved 5, Cell.solved 3, Cell.notSolved [1, 2, 4], Cell.notSolved [2, 6], Cell.solved 7, Cell.notSolved [2, 4, 6, 8], Cell.notSolved [1, 4, 8, 9], Cell.notSolved [1, 2, 4, 9], Cell.notSolved [2, 4, 8], Cell.solved 6, Cell.notSolved [2, 4, 7], Cell.notSolved [2, 4, 7], Cell.solved 1, Cell.solved 9, Cell.solved 5, Cell.notSolved [3, 4, 7, 8], Cell.notSolved [2, 3, 4], Cell.notSolved [2, 4, 7, 8], Cell.notSolved [1, 2], Cell.solved 9, Cell.solved 8, Cell.notSolved [2, 3], Cell.notSolved [3, 4], Cell.notSolved [2, 4], Cell.notSolved [1, 3, 4, 5, 7], Cell.solved 6, Cell.notSolved [2, 4, 7], Cell.solved 8, Cell.notSolved [1, 2, 5], Cell.notSolved [1, 2, 5, 9], Cell.notSolved [5, 7, 9], Cell.solved 6, Cell.notSolved [1, 4, 7], Cell.notSolved [4, 5, 7, 9], Cell.notSolved [2, 4, 5, 9], Cell.solved 3, Cell.solved 4, Cell.notSolved [2, 5], Cell.notSolved [2, 5, 6, 9], Cell.solved 8, Cell.solved 5, Cell.solved 3, Cell.notSolved [5, 7, 9], Cell.notSolved [2, 5, 9], Cell.solved 1, Cell.solved 7, Cell.notSolved [1, 5], Cell.notSolved [1, 3, 5, 9], Cell.notSolved [5, 9], Cell.solved 2, Cell.notSolved [1, 4], Cell.notSolved [4, 5, 8, 9], Cell.notSolved [4, 5, 9], Cell.solved 6, Cell.notSolved [1, 3, 9], Cell.solved 6, Cell.notSolved [1, 3, 4, 5, 7, 9], Cell.notSolved [3, 5, 7], Cell.notSolved [3, 5], Cell.solved 7, Cell.solved 2, Cell.solved 8, Cell.solved 4, Cell.notSolved [2, 3], Cell.notSolved [2, 7, 8], Cell.notSolved [2, 3, 7], Cell.solved 4, Cell.solved 1, Cell.solved 9, Cell.notSolved [3, 6], Cell.solved 3, Cell.solved 5, Cell.notSolved [1, 2, 3], Cell.notSolved [1, 2, 4, 5], Cell.notSolved [1, 2, 3, 4, 5], Cell.notSolved [2, 3, 5, 6], Cell.solved 8, Cell.notSolved [2, 6], Cell.notSolved [1, 3, 4, 6], Cell.solved 7, Cell.solved 9]

/-- The canonical run, solved-scan result of round 2. -/
def pB2 : Board := [Cell.solved 5, Cell.solved 3, Cell.notSolved [1, 2, 4], Cell.notSolved [2, 6], Cell.solved 7, Cell.notSolved [2, 4, 6, 8], Cell.notSolved [1, 4, 8, 9], Cell.notSolved [1, 2, 4, 9], Cell.notSolved [2, 8], Cell.solved 6, Cell.notSolved [2, 4, 7], Cell.notSolved [2, 4, 7], Cell.solved 1, Cell.solved 9, Cell.solved 5, Cell.notSolved [3, 4, 7, 8], Cell.notSolved [2, 4], Cell.notSolved [2, 7, 8], Cell.notSolved [1, 2], Cell.solved 9, Cell.solved 8, Cell.notSolved [2, 3], Cell.notSolved [3, 4], Cell.notSolved [2, 4], Cell.notSolved [1, 3, 4, 5, 7], Cell.solved 6, Cell.notSolved [2, 7], Cell.solved 8, Cell.notSolved [1, 2, 5], Cell.notSolved [1, 2, 5, 9], Cell.notSolved [7, 9], Cell.solved 6, Cell.notSolved [1, 4], Cell.notSolved [4, 5, 7, 9], Cell.notSolved [2, 4, 5, 9], Cell.solved 3, Cell.solved 4, Cell.notSolved [2], Cell.notSolved [2, 6, 9], Cell.solved 8, Cell.solved 5, Cell.solved 3, Cell.notSolved [7, 9], Cell.notSolved [2, 9], Cell.solved 1, Cell.solved 7, Cell.notSolved [1, 5], Cell.notSolved [1, 3, 5, 9], Cell.notSolved [9], Cell.solved 2, Cell.notSolved [1, 4], Cell.notSolved [4, 5, 8, 9], Cell.notSolved [4, 5, 9], Cell.solved 6, Cell.notSolved [1, 3, 9], Cell.solved 6, Cell.notSolved [1, 3, 5, 9], Cell.notSolved [3, 5], Cell.notSolved [3], Cell.solved 7, Cell.solved 2, Cell.solved 8, Cell.solved 4, Cell.notSolved [2], Cell.notSolved [2, 7, 8], Cell.notSolved [2, 7], Cell.solved 4, Cell.solved 1, Cell.solved 9, Cell.notSolved [6], Cell.solved 3, Cell.solved 5, Cell.notSolved [1, 2, 3], Cell.notSolved [1, 2, 4, 5], Cell.notSolved [1, 2, 3, 4, 5], Cell.notSolved [2, 3, 5, 6], Cell.solved 8, Cell.notSolved [2, 6], Cell.notSolved [1, 6], Cell.solved 7, Cell.solved 9]

/-- The canonical run, board after the promotions of round 2. -/
def qB2 : Board := [Cell.solved 5, Cell.solved 3, Cell.notSolved [1, 2, 4], Cell.notSolved [2, 6], Cell.solved 7, Cell.notSolved [2, 4, 6, 8], Cell.notSolved [1, 4, 8, 9], Cell.notSolved [1, 2, 4, 9], Cell.notSolved [2, 8], Cell.solved 6, Cell.notSolved [2, 4, 7], Cell.notSolved [2, 4, 7], Cell.solved 1, Cell.solved 9, Cell.solved 5, Cell.notSolved [3, 4, 7, 8], Cell.notSolved [2, 4], Cell.notSolved [2, 7, 8], Cell.notSolved [1, 2], Cell.solved 9, Cell.solved 8, Cell.notSolved [2, 3], Cell.notSolved [3, 4], Cell.notSolved [2, 4], Cell.notSolved [1, 3, 4, 5, 7], Cell.solved 6, Cell.notSolved [2, 7], Cell.solved 8, Cell.notSolved [1, 2, 5], Cell.notSolved [1, 2, 5, 9], Cell.notSolved [7, 9], Cell.solved 6, Cell.notSolved [1, 4], Cell.notSolved [4, 5, 7, 9], Cell.notSolved [2, 4, 5, 9], Cell.solved 3, Cell.solved 4, Cell.solved 2, Cell.notSolved [2, 6, 9], Cell.solved 8, Cell.solved 5, Cell.solved 3, Cell.notSolved [7, 9], Cell.notSolved [2, 9], Cell.solved 1, Cell.solved 7, Cell.notSolved [1, 5], Cell.notSolved [1, 3, 5, 9], Cell.solved 9, Cell.solved 2, Cell.notSolved [1, 4], Cell.notSolved [4, 5, 8, 9], Cell.notSolved [4, 5, 9], Cell.solved 6, Cell.notSolved [1, 3, 9], Cell.solved 6, Cell.notSolved [1, 3, 5, 9], Cell.notSolved [3, 5], Cell.solved 3, Cell.solved 7, Cell.solved 2, Cell.solved 8, Cell.solved 4, Cell.solved 2, Cell.notSolved [2, 7, 8], Cell.notSolved [2, 7], Cell.solved 4, Cell.solved 1, Cell.solved 9, Cell.solved 6, Cell.solved 3, Cell.solved 5, Cell.notSolved [1, 2, 3], Cell.notSolved [1, 2, 4, 5], Cell.notSolved [1, 2, 3, 4, 5], Cell.notSolved [2, 3, 5, 6], Cell.solved 8, Cell.notSolved [2, 6], Cell.notSolved [1, 6], Cell.solved 7, Cell.solved 9]

/-- The canonical run, solved-scan result of round 3. -/
def pB3 : Board := [Cell.solved 5, Cell.solved 3, Cell.notSolved [1, 2, 4], Cell.notSolved [2, 6], Cell.solved 7, Cell.notSolved [2, 4, 6, 8], Cell.notSolved [1, 4, 8, 9], Cell.notSolved [1, 2, 4, 9], Cell.notSolved [2, 8], Cell.solved 6, Cell.notSolved [4, 7], Cell.notSolved [2, 4, 7], Cell.solved 1, Cell.solved 9, Cell.solved 5, Cell.notSolved [3, 4, 7, 8], Cell.notSolved [2, 4], Cell.notSolved [2, 7, 8], Cell.notSolved [1], Cell.solved 9, Cell.solved 8, Cell.notSolved [2, 3], Cell.notSolved [4], Cell.notSolved [2, 4], Cell.notSolved [1, 3, 4, 5, 7], Cell.solved 6, Cell.notSolved [2, 7], Cell.solved 8, Cell.notSolved [1, 5], Cell.notSolved [1, 5, 9], Cell.notSolved [7], Cell.solved 6, Cell.notSolved [1, 4], Cell.notSolved [4, 5, 7, 9], Cell.notSolved [2, 4, 5, 9], Cell.solved 3, Cell.solved 4, Cell.solved 2, Cell.notSolved [6, 9], Cell.solved 8, Cell.solved 5, Cell.solved 3, Cell.notSolved [7, 9], Cell.notSolved [9], Cell.solved 1, Cell.solved 7, Cell.notSolved [1, 5], Cell.notSolved [1, 3, 5], Cell.solved 9, Cell.solved 2, Cell.notSolved [1, 4], Cell.notSolved [4, 5, 8], Cell.notSolved [4, 5], Cell.solved 6, Cell.notSolved [1, 9], Cell.solved 6, Cell.notSolved [1, 5, 9], Cell.notSolved [5], Cell.solved 3, Cell.solved 7, Cell.solved 2, Cell.solved 8, Cell.solved 4, Cell.solved 2, Cell.notSolved [7, 8], Cell.notSolved [7], Cell.solved 4, Cell.solved 1, Cell.solved 9, Cell.solved 6, Cell.solved 3, Cell.solved 5, Cell.notSolved [1, 3], Cell.notSolved [1, 4, 5], Cell.notSolved [1, 3, 4, 5], Cell.notSolved [2, 5, 6], Cell.solved 8, Cell.notSolved [2, 6], Cell.notSolved [1], Cell.solved 7, Cell.solved 9]

/-- The canonical run, board after the promotions of round 3. -/
def qB3 : Board := [Cell.solved 5, Cell.solved 3, Cell.notSolved [1, 2, 4], Cell.notSolved [2, 6], Cell.solved 7, Cell.notSolved [2, 4, 6, 8], Cell.notSolved [1, 4, 8, 9], Cell.notSolved [1, 2, 4, 9], Cell.notSolved [2, 8], Cell.solved 6, Cell.notSolved [4, 7], Cell.notSolved [2, 4, 7], Cell.solved 1, Cell.solved 9, Cell.solved 5, Cell.notSolved [3, 4, 7, 8], Cell.notSolved [2, 4], Cell.notSolved [2, 7, 8], Cell.solved 1, Cell.solved 9, Cell.solved 8, Cell.notSolved [2, 3], Cell.solved 4, Cell.notSolved [2, 4], Cell.notSolved [1, 3, 4, 5, 7], Cell.solved 6, Cell.notSolved [2, 7], Cell.solved 8, Cell.notSolved [1, 5], Cell.notSolved [1, 5, 9], Cell.solved 7, Cell.solved 6, Cell.notSolved [1, 4], Cell.notSolved [4, 5, 7, 9], Cell.notSolved [2, 4, 5, 9], Cell.solved 3, Cell.solved 4, Cell.solved 2, Cell.notSolved [6, 9], Cell.solved 8, Cell.solved 5, Cell.solved 3, Cell.notSolved [7, 9], Cell.solved 9, Cell.solved 1, Cell.solved 7, Cell.notSolved [1, 5], Cell.notSolved [1, 3, 5], Cell.solved 9, Cell.solved 2, Cell.notSolved [1, 4], Cell.notSolved [4, 5, 8], Cell.notSolved [4, 5], Cell.solved 6, Cell.notSolved [1, 9], Cell.solved 6, Cell.notSolved [1, 5, 9], Cell.solved 5, Cell.solved 3, Cell.solved 7, Cell.solved 2, Cell.solved 8, Cell.solved 4, Cell.solved 2, Cell.notSolved [7, 8], Cell.solved 7, Cell.solved 4, Cell.solved 1, Cell.solved 9, Cell.solved 6, Cell.solved 3, Cell.solved 5, Cell.notSolved [1, 3], Cell.notSolved [1, 4, 5], Cell.notSolved [1, 3, 4, 5], Cell.notSolved [2, 5, 6], Cell.solved 8, Cell.notSolved [2, 6], Cell.solved 1, Cell.solved 7, Cell.solved 9]

/-- The canonical run, solved-scan result of round 4. -/
def pB4 : Board := [Cell.solved 5, Cell.solved 3, Cell.notSolved [2, 4], Cell.notSolved [2, 6], Cell.solved 7, Cell.notSolved [2, 6, 8], Cell.notSolved [4, 8, 9], Cell.notSolved [1, 2, 4], Cell.notSolved [2, 8], Cell.solved 6, Cell.notSolved [4, 7], Cell.notSolved [2, 4], Cell.solved 1, Cell.solved 9, Cell.solved 5, Cell.notSolved [3, 4, 7, 8], Cell.notSolved [2, 4], Cell.notSolved [2, 7, 8], Cell.solved 1, Cell.solved 9, Cell.solved 8, Cell.notSolved [2, 3], Cell.solved 4, Cell.notSolved [2], Cell.notSolved [3, 5, 7], Cell.solved 6, Cell.notSolved [2, 7], Cell.solved 8, Cell.notSolved [1, 5], Cell.notSolved [1, 5, 9], Cell.solved 7, Cell.solved 6, Cell.notSolved [1, 4], Cell.notSolved [4, 5], Cell.notSolved [2, 4, 5], Cell.solved 3, Cell.solved 4, Cell.solved 2, Cell.notSolved [6], Cell.solved 8, Cell.solved 5, Cell.solved 3, Cell.notSolved [7], Cell.solved 9, Cell.solved 1, Cell.solved 7, Cell.notSolved [1, 5], Cell.notSolved [1, 3, 5], Cell.solved 9, Cell.solved 2, Cell.notSolved [1, 4], Cell.notSolved [4, 5, 8], Cell.notSolved [4, 5], Cell.solved 6, Cell.notSolved [9], Cell.solved 6, Cell.notSolved [1, 9], Cell.solved 5, Cell.solved 3, Cell.solved 7, Cell.solved 2, Cell.solved 8, Cell.solved 4, Cell.solved 2, Cell.notSolved [8], Cell.solved 7, Cell.solved 4, Cell.solved 1, Cell.solved 9, Cell.solved 6, Cell.solved 3, Cell.solved 5, Cell.notSolved [3], Cell.notSolved [4, 5], Cell.notSolved [3, 4, 5], Cell.notSolved [2, 6], Cell.solved 8, Cell.notSolved [2, 6], Cell.solved 1, Cell.solved 7, Cell.solved 9]

/-- The canonical run, board after the promotions of round 4. -/
def qB4 : Board := [Cell.solved 5, Cell.solved 3, Cell.notSolved [2, 4], Cell.notSolved [2, 6], Cell.solved 7, Cell.notSolved [2, 6, 8], Cell.notSolved [4, 8, 9], Cell.notSolved [1, 2, 4], Cell.notSolved [2, 8], Cell.solved 6, Cell.notSolved [4, 7], Cell.notSolved [2, 4], Cell.solved 1, Cell.solved 9, Cell.solved 5, Cell.notSolved [3, 4, 7, 8], Cell.notSolved [2, 4], Cell.notSolved [2, 7, 8], Cell.solved 1, Cell.solved 9, Cell.solved 8, Cell.notSolved [2, 3], Cell.solved 4, Cell.solved 2, Cell.notSolved [3, 5, 7], Cell.solved 6, Cell.notSolved [2, 7], Cell.solved 8, Cell.notSolved [1, 5], Cell.notSolved [1, 5, 9], Cell.solved 7, Cell.solved 6, Cell.notSolved [1, 4], Cell.notSolved [4, 5], Cell.notSolved [2, 4, 5], Cell.solved 3, Cell.solved 4, Cell.solved 2, Cell.solved 6, Cell.solved 8, Cell.solved 5, Cell.solved 3, Cell.solved 7, Cell.solved 9, Cell.solved 1, Cell.solved 7, Cell.notSolved [1, 5], Cell.notSolved [1, 3, 5], Cell.solved 9, Cell.solved 2, Cell.notSolved [1, 4], Cell.notSolved [4, 5, 8], Cell.notSolved [4, 5], Cell.solved 6, Cell.solved 9, Cell.solved 6, Cell.notSolved [1, 9], Cell.solved 5, Cell.solved 3, Cell.solved 7, Cell.solved 2, Cell.solved 8, Cell.solved 4, Cell.solved 2, Cell.solved 8, Cell.solved 7, Cell.solved 4, Cell.solved 1, Cell.solved 9, Cell.solved 6, Cell.solved 3, Cell.solved 5, Cell.solved 3, Cell.notSolved [4, 5], Cell.notSolved [3, 4, 5], Cell.notSolved [2, 6], Cell.solved 8, Cell.notSolved [2, 6], Cell.solved 1, Cell.solved 7, Cell.solved 9]

/-- The canonical run, solved-scan result of round 5. -/
def pB5 : Board := [Cell.solved 5, Cell.solved 3, Cell.notSolved [2, 4], Cell.notSolved [6], Cell.solved 7, Cell.notSolved [6, 8], Cell.notSolved [4, 8, 9], Cell.notSolved [1, 2, 4], Cell.notSolved [2, 8], Cell.solved 6, Cell.notSolved [4, 7], Cell.notSolved [2, 4], Cell.solved 1, Cell.solved 9, Cell.solved 5, Cell.notSolved [3, 4, 8], Cell.notSolved [2, 4], Cell.notSolved [2, 7, 8], Cell.solved 1, Cell.solved 9, Cell.solved 8, Cell.notSolved [3], Cell.solved 4, Cell.solved 2, Cell.notSolved [3, 5], Cell.solved 6, Cell.notSolved [7], Cell.solved 8, Cell.notSolved [1, 5], Cell.notSolved [1, 5, 9], Cell.solved 7, Cell.solved 6, Cell.notSolved [1, 4], Cell.notSolved [4, 5], Cell.notSolved [2, 4, 5], Cell.solved 3, Cell.solved 4, Cell.solved 2, Cell.solved 6, Cell.solved 8, Cell.solved 5, Cell.solved 3, Cell.solved 7, Cell.solved 9, Cell.solved 1, Cell.solved 7, Cell.notSolved [1, 5], Cell.notSolved [1, 3, 5], Cell.solved 9, Cell.solved 2, Cell.notSolved [1, 4], Cell.notSolved [4, 5, 8], Cell.notSolved [4, 5], Cell.solved 6, Cell.solved 9, Cell.solved 6, Cell.notSolved [1], Cell.solved 5, Cell.solved 3, Cell.solved 7, Cell.solved 2, Cell.solved 8, Cell.solved 4, Cell.solved 2, Cell.solved 8, Cell.solved 7, Cell.solved 4, Cell.solved 1, Cell.solved 9, Cell.solved 6, Cell.solved 3, Cell.solved 5, Cell.solved 3, Cell.notSolved [4, 5], Cell.notSolved [4, 5], Cell.notSolved [2, 6], Cell.solved 8, Cell.notSolved [6], Cell.solved 1, Cell.solved 7, Cell.solved 9]

/-- The canonical run, board after the promotions of round 5. -/
def qB5 : Board := [Cell.solved 5, Cell.solved 3, Cell.notSolved [2, 4], Cell.solved 6, Cell.solved 7, Cell.notSolved [6, 8], Cell.notSolved [4, 8, 9], Cell.notSolved [1, 2, 4], Cell.notSolved [2, 8], Cell.solved 6, Cell.notSolved [4, 7], Cell.notSolved [2, 4], Cell.solved 1, Cell.solved 9, Cell.solved 5, Cell.notSolved [3, 4, 8], Cell.notSolved [2, 4], Cell.notSolved [2, 7, 8], Cell.solved 1, Cell.solved 9, Cell.solved 8, Cell.solved 3, Cell.solved 4, Cell.solved 2, Cell.notSolved [3, 5], Cell.solved 6, Cell.solved 7, Cell.solved 8, Cell.notSolved [1, 5], Cell.notSolved [1, 5, 9], Cell.solved 7, Cell.solved 6, Cell.notSolved [1, 4], Cell.notSolved [4, 5], Cell.notSolved [2, 4, 5], Cell.solved 3, Cell.solved 4, Cell.solved 2, Cell.solved 6, Cell.solved 8, Cell.solved 5, Cell.solved 3, Cell.solved 7, Cell.solved 9, Cell.solved 1, Cell.solved 7, Cell.notSolved [1, 5], Cell.notSolved [1, 3, 5], Cell.solved 9, Cell.solved 2, Cell.notSolved [1, 4], Cell.notSolved [4, 5, 8], Cell.notSolved [4, 5], Cell.solved 6, Cell.solved 9, Cell.solved 6, Cell.solved 1, Cell.solved 5, Cell.solved 3, Cell.solved 7, Cell.solved 2, Cell.solved 8, Cell.solved 4, Cell.solved 2, Cell.solved 8, Cell.solved 7, Cell.solved 4, Cell.solved 1, Cell.solved 9, Cell.solved 6, Cell.solved 3, Cell.solved 5, Cell.solved 3, Cell.notSolved [4, 5], Cell.notSolved [4, 5], Cell.notSolved [2, 6], Cell.solved 8, Cell.solved 6, Cell.solved 1, Cell.solved 7, Cell.solved 9]

/-- The canonical run, solved-scan result of round 6. -/
def pB6 : Board := [Cell.solved 5, Cell.solved 3, Cell.notSolved [2, 4], Cell.solved 6, Cell.solved 7, Cell.notSolved [8], Cell.notSolved [4, 8, 9], Cell.notSolved [1, 2, 4], Cell.notSolved [2, 8], Cell.solved 6, Cell.notSolved [4, 7], Cell.notSolved [2, 4], Cell.solved 1, Cell.solved 9, Cell.solved 5, Cell.notSolved [3, 4, 8], Cell.notSolved [2, 4], Cell.notSolved [2, 8], Cell.solved 1, Cell.solved 9, Cell.solved 8, Cell.solved 3, Cell.solved 4, Cell.solved 2, Cell.notSolved [5], Cell.solved 6, Cell.solved 7, Cell.solved 8, Cell.notSolved [1, 5], Cell.notSolved [5, 9], Cell.solved 7, Cell.solved 6, Cell.notSolved [1, 4], Cell.notSolved [4, 5], Cell.notSolved [2, 4, 5], Cell.solved 3, Cell.solved 4, Cell.solved 2, Cell.solved 6, Cell.solved 8, Cell.solved 5, Cell.solved 3, Cell.solved 7, Cell.solved 9, Cell.solved 1, Cell.solved 7, Cell.notSolved [1, 5], Cell.notSolved [3, 5], Cell.solved 9, Cell.solved 2, Cell.notSolved [1, 4], Cell.notSolved [4, 5, 8], Cell.notSolved [4, 5], Cell.solved 6, Cell.solved 9, Cell.solved 6, Cell.solved 1, Cell.solved 5, Cell.solved 3, Cell.solved 7, Cell.solved 2, Cell.solved 8, Cell.solved 4, Cell.solved 2, Cell.solved 8, Cell.solved 7, Cell.solved 4, Cell.solved 1, Cell.solved 9, Cell.solved 6, Cell.solved 3, Cell.solved 5, Cell.solved 3, Cell.notSolved [4, 5], Cell.notSolved [4, 5], Cell.notSolved [2], Cell.solved 8, Cell.solved 6, Cell.solved 1, Cell.solved 7, Cell.solved 9]

/-- The canonical run, board after the promotions of round 6. -/
def qB6 : Board := [Cell.solved 5, Cell.solved 3, Cell.notSolved [2, 4], Cell.solved 6, Cell.solved 7, Cell.solved 8, Cell.notSolved [4, 8, 9], Cell.notSolved [1, 2, 4], Cell.notSolved [2, 8], Cell.solved 6, Cell.notSolved [4, 7], Cell.notSolved [2, 4], Cell.solved 1, Cell.solved 9, Cell.solved 5, Cell.notSolved [3, 4, 8], Cell.notSolved [2, 4], Cell.notSolved [2, 8], Cell.solved 1, Cell.solved 9, Cell.solved 8, Cell.solved 3, Cell.solved 4, Cell.solved 2, Cell.solved 5, Cell.solved 6, Cell.solved 7, Cell.solved 8, Cell.notSolved [1, 5], Cell.notSolved [5, 9], Cell.solved 7, Cell.solved 6, Cell.notSolved [1, 4], Cell.notSolved [4, 5], Cell.notSolved [2, 4, 5], Cell.solved 3, Cell.solved 4, Cell.solved 2, Cell.solved 6, Cell.solved 8, Cell.solved 5, Cell.solved 3, Cell.solved 7, Cell.solved 9, Cell.solved 1, Cell.solved 7, Cell.notSolved [1, 5], Cell.notSolved [3, 5], Cell.solved 9, Cell.solved 2, Cell.notSolved [1, 4], Cell.notSolved [4, 5, 8], Cell.notSolved [4, 5], Cell.solved 6, Cell.solved 9, Cell.solved 6, Cell.solved 1, Cell.solved 5, Cell.solved 3, Cell.solved 7, Cell.solved 2, Cell.solved 8, Cell.solved 4, Cell.solved 2, Cell.solved 8, Cell.solved 7, Cell.solved 4, Cell.solved 1, Cell.solved 9, Cell.solved 6, Cell.solved 3, Cell.solved 5, Cell.solved 3, Cell.notSolved [4, 5], Cell.notSolved [4, 5], Cell.solved 2, Cell.solved 8, Cell.solved 6, Cell.solved 1, Cell.solved 7, Cell.solved 9]

/-- The canonical run, solved-scan result of round 7. -/
def pB7 : Board := [Cell.solved 5, Cell.solved 3, Cell.notSolved [2, 4], Cell.solved 6, Cell.solved 7, Cell.solved 8, Cell.notSolved [4, 9], Cell.notSolved [1, 2, 4], Cell.notSolved [2], Cell.solved 6, Cell.notSolved [4, 7], Cell.notSolved [2, 4], Cell.solved 1, Cell.solved 9, Cell.solved 5, Cell.notSolved [3, 4, 8], Cell.notSolved [2, 4], Cell.notSolved [2, 8], Cell.solved 1, Cell.solved 9, Cell.solved 8, Cell.solved 3, Cell.solved 4, Cell.solved 2, Cell.solved 5, Cell.solved 6, Cell.solved 7, Cell.solved 8, Cell.notSolved [1, 5], Cell.notSolved [5, 9], Cell.solved 7, Cell.solved 6, Cell.notSolved [1, 4], Cell.notSolved [4], Cell.notSolved [2, 4, 5], Cell.solved 3, Cell.solved 4, Cell.solved 2, Cell.solved 6, Cell.solved 8, Cell.solved 5, Cell.solved 3, Cell.solved 7, Cell.solved 9, Cell.solved 1, Cell.solved 7, Cell.notSolved [1, 5], Cell.notSolved [3, 5], Cell.solved 9, Cell.solved 2, Cell.notSolved [1, 4], Cell.notSolved [4, 8], Cell.notSolved [4, 5], Cell.solved 6, Cell.solved 9, Cell.solved 6, Cell.solved 1, Cell.solved 5, Cell.solved 3, Cell.solved 7, Cell.solved 2, Cell.solved 8, Cell.solved 4, Cell.solved 2, Cell.solved 8, Cell.solved 7, Cell.solved 4, Cell.solved 1, Cell.solved 9, Cell.solved 6, Cell.solved 3, Cell.solved 5, Cell.solved 3, Cell.notSolved [4, 5], Cell.notSolved [4, 5], Cell.solved 2, Cell.solved 8, Cell.solved 6, Cell.solved 1, Cell.solved 7, Cell.solved 9]

/-- The canonical run, board after the promotions of round 7. -/
def qB7 : Board := [Cell.solved 5, Cell.solved 3, Cell.notSolved [2, 4], Cell.solved 6, Cell.solved 7, Cell.solved 8, Cell.notSolved [4, 9], Cell.notSolved [1, 2, 4], Cell.solved 2, Cell.solved 6, Cell.notSolved [4, 7], Cell.notSolved [2, 4], Cell.solved 1, Cell.solved 9, Cell.solved 5, Cell.notSolved [3, 4, 8], Cell.notSolved [2, 4], Cell.notSolved [2, 8], Cell.solved 1, Cell.solved 9, Cell.solved 8, Cell.solved 3, Cell.solved 4, Cell.solved 2, Cell.solved 5, Cell.solved 6, Cell.solved 7, Cell.solved 8, Cell.notSolved [1, 5], Cell.notSolved [5, 9], Cell.solved 7, Cell.solved 6, Cell.notSolved [1, 4], Cell.solved 4, Cell.notSolved [2, 4, 5], Cell.solved 3, Cell.solved 4, Cell.solved 2, Cell.solved 6, Cell.solved 8, Cell.solved 5, Cell.solved 3, Cell.solved 7, Cell.solved 9, Cell.solved 1, Cell.solved 7, Cell.notSolved [1, 5], Cell.notSolved [3, 5], Cell.solved 9, Cell.solved 2, Cell.notSolved [1, 4], Cell.notSolved [4, 8], Cell.notSolved [4, 5], Cell.solved 6, Cell.solved 9, Cell.solved 6, Cell.solved 1, Cell.solved 5, Cell.solved 3, Cell.solved 7, Cell.solved 2, Cell.solved 8, Cell.solved 4, Cell.solved 2, Cell.solved 8, Cell.solved 7, Cell.solved 4, Cell.solved 1, Cell.solved 9, Cell.solved 6, Cell.solved 3, Cell.solved 5, Cell.solved 3, Cell.notSolved [4, 5], Cell.notSolved [4, 5], Cell.solved 2, Cell.solved 8, Cell.solved 6, Cell.solved 1, Cell.solved 7, Cell.solved 9]

/-- The canonical run, solved-scan result of round 8. -/
def pB8 : Board := [Cell.solved 5, Cell.solved 3, Cell.notSolved [4], Cell.solved 6, Cell.solved 7, Cell.solved 8, Cell.notSolved [9], Cell.notSolved [1, 4], Cell.solved 2, Cell.solved 6, Cell.notSolved [4, 7], Cell.notSolved [2, 4], Cell.solved 1, Cell.solved 9, Cell.solved 5, Cell.notSolved [3, 8], Cell.notSolved [4], Cell.notSolved [8], Cell.solved 1, Cell.solved 9, Cell.solved 8, Cell.solved 3, Cell.solved 4, Cell.solved 2, Cell.solved 5, Cell.solved 6, Cell.solved 7, Cell.solved 8, Cell.notSolved [1, 5], Cell.notSolved [5, 9], Cell.solved 7, Cell.solved 6, Cell.notSolved [1], Cell.solved 4, Cell.notSolved [2, 5], Cell.solved 3, Cell.solved 4, Cell.solved 2, Cell.solved 6, Cell.solved 8, Cell.solved 5, Cell.solved 3, Cell.solved 7, Cell.solved 9, Cell.solved 1, Cell.solved 7, Cell.notSolved [1, 5], Cell.notSolved [3, 5], Cell.solved 9, Cell.solved 2, Cell.notSolved [1, 4], Cell.notSolved [8], Cell.notSolved [5], Cell.solved 6, Cell.solved 9, Cell.solved 6, Cell.solved 1, Cell.solved 5, Cell.solved 3, Cell.solved 7, Cell.solved 2, Cell.solved 8, Cell.solved 4, Cell.solved 2, Cell.solved 8, Cell.solved 7, Cell.solved 4, Cell.solved 1, Cell.solved 9, Cell.solved 6, Cell.solved 3, Cell.solved 5, Cell.solved 3, Cell.notSolved [4, 5], Cell.notSolved [4, 5], Cell.solved 2, Cell.solved 8, Cell.solved 6, Cell.solved 1, Cell.solved 7, Cell.solved 9]

/-- The canonical run, board after the promotions of round 8. -/
def qB8 : Board := [Cell.solved 5, Cell.solved 3, Cell.solved 4, Cell.solved 6, Cell.solved 7, Cell.solved 8, Cell.solved 9, Cell.notSolved [1, 4], Cell.solved 2, Cell.solved 6, Cell.notSolved [4, 7], Cell.notSolved [2, 4], Cell.solved 1, Cell.solved 9, Cell.solved 5, Cell.notSolved [3, 8], Cell.solved 4, Cell.solved 8, Cell.solved 1, Cell.solved 9, Cell.solved 8, Cell.solved 3, Cell.solved 4, Cell.solved 2, Cell.solved 5, Cell.solved 6, Cell.solved 7, Cell.solved 8, Cell.notSolved [1, 5], Cell.notSolved [5, 9], Cell.solved 7, Cell.solved 6, Cell.solved 1, Cell.solved 4, Cell.notSolved [2, 5], Cell.solved 3, Cell.solved 4, Cell.solved 2, Cell.solved 6, Cell.solved 8, Cell.solved 5, Cell.solved 3, Cell.solved 7, Cell.solved 9, Cell.solved 1, Cell.solved 7, Cell.notSolved [1, 5], Cell.notSolved [3, 5], Cell.solved 9, Cell.solved 2, Cell.notSolved [1, 4], Cell.solved 8, Cell.solved 5, Cell.solved 6, Cell.solved 9, Cell.solved 6, Cell.solved 1, Cell.solved 5, Cell.solved 3, Cell.solved 7, Cell.solved 2, Cell.solved 8, Cell.solved 4, Cell.solved 2, Cell.solved 8, Cell.solved 7, Cell.solved 4, Cell.solved 1, Cell.solved 9, Cell.solved 6, Cell.solved 3, Cell.solved 5, Cell.solved 3, Cell.notSolved [4, 5], Cell.notSolved [4, 5], Cell.solved 2, Cell.solved 8, Cell.solved 6, Cell.solved 1, Cell.solved 7, Cell.solved 9]

/-- The canonical run, solved-scan result of round 9. -/
def pB9 : Board := [Cell.solved 5, Cell.solved 3, Cell.solved 4, Cell.solved 6, Cell.solved 7, Cell.solved 8, Cell.solved 9, Cell.notSolved [1], Cell.solved 2, Cell.solved 6, Cell.notSolved [7], Cell.notSolved [2], Cell.solved 1, Cell.solved 9, Cell.solved 5, Cell.notSolved [3], Cell.solved 4, Cell.solved 8, Cell.solved 1, Cell.solved 9, Cell.solved 8, Cell.solved 3, Cell.solved 4, Cell.solved 2, Cell.solved 5, Cell.solved 6, Cell.solved 7, Cell.solved 8, Cell.notSolved [5], Cell.notSolved [5, 9], Cell.solved 7, Cell.solved 6, Cell.solved 1, Cell.solved 4, Cell.notSolved [2], Cell.solved 3, Cell.solved 4, Cell.solved 2, Cell.solved 6, Cell.solved 8, Cell.solved 5, Cell.solved 3, Cell.solved 7, Cell.solved 9, Cell.solved 1, Cell.solved 7, Cell.notSolved [1], Cell.notSolved [3], Cell.solved 9, Cell.solved 2, Cell.notSolved [4], Cell.solved 8, Cell.solved 5, Cell.solved 6, Cell.solved 9, Cell.solved 6, Cell.solved 1, Cell.solved 5, Cell.solved 3, Cell.solved 7, Cell.solved 2, Cell.solved 8, Cell.solved 4, Cell.solved 2, Cell.solved 8, Cell.solved 7, Cell.solved 4, Cell.solved 1, Cell.solved 9, Cell.solved 6, Cell.solved 3, Cell.solved 5, Cell.solved 3, Cell.notSolved [4, 5], Cell.notSolved [5], Cell.solved 2, Cell.solved 8, Cell.solved 6, Cell.solved 1, Cell.solved 7, Cell.solved 9]

/-- The canonical run, board after the promotions of round 9. -/
def qB9 : Board := [Cell.solved 5, Cell.solved 3, Cell.solved 4, Cell.solved 6, Cell.solved 7, Cell.solved 8, Cell.solved 9, Cell.solved 1, Cell.solved 2, Cell.solved 6, Cell.solved 7, Cell.solved 2, Cell.solved 1, Cell.solved 9, Cell.solved 5, Cell.solved 3, Cell.solved 4, Cell.solved 8, Cell.solved 1, Cell.solved 9, Cell.solved 8, Cell.solved 3, Cell.solved 4, Cell.solved 2, Cell.solved 5, Cell.solved 6, Cell.solved 7, Cell.solved 8, Cell.solved 5, Cell.notSolved [5, 9], Cell.solved 7, Cell.solved 6, Cell.solved 1, Cell.solved 4, Cell.solved 2, Cell.solved 3, Cell.solved 4, Cell.solved 2, Cell.solved 6, Cell.solved 8, Cell.solved 5, Cell.solved 3, Cell.solved 7, Cell.solved 9, Cell.solved 1, Cell.solved 7, Cell.solved 1, Cell.solved 3, Cell.solved 9, Cell.solved 2, Cell.solved 4, Cell.solved 8, Cell.solved 5, Cell.solved 6, Cell.solved 9, Cell.solved 6, Cell.solved 1, Cell.solved 5, Cell.solved 3, Cell.solved 7, Cell.solved 2, Cell.solved 8, Cell.solved 4, Cell.solved 2, Cell.solved 8, Cell.solved 7, Cell.solved 4, Cell.solved 1, Cell.solved 9, Cell.solved 6, Cell.solved 3, Cell.solved 5, Cell.solved 3, Cell.notSolved [4, 5], Cell.solved 5, Cell.solved 2, Cell.solved 8, Cell.solved 6, Cell.solved 1, Cell.solved 7, Cell.solved 9]

/-- The canonical run, solved-scan result of round 10. -/
def pB10 : Board := [Cell.solved 5, Cell.solved 3, Cell.solved 4, Cell.solved 6, Cell.solved 7, Cell.solved 8, Cell.solved 9, Cell.solved 1, Cell.solved 2, Cell.solved 6, Cell.solved 7, Cell.solved 2, Cell.solved 1, Cell.solved 9, Cell.solved 5, Cell.solved 3, Cell.solved 4, Cell.solved 8, Cell.solved 1, Cell.solved 9, Cell.solved 8, Cell.solved 3, Cell.solved 4, Cell.solved 2, Cell.solved 5, Cell.solved 6, Cell.solved 7, Cell.solved 8, Cell.solved 5, Cell.notSolved [9], Cell.solved 7, Cell.solved 6, Cell.solved 1, Cell.solved 4, Cell.solved 2, Cell.solved 3, Cell.solved 4, Cell.solved 2, Cell.solved 6, Cell.solved 8, Cell.solved 5, Cell.solved 3, Cell.solved 7, Cell.solved 9, Cell.solved 1, Cell.solved 7, Cell.solved 1, Cell.solved 3, Cell.solved 9, Cell.solved 2, Cell.solved 4, Cell.solved 8, Cell.solved 5, Cell.solved 6, Cell.solved 9, Cell.solved 6, Cell.solved 1, Cell.solved 5, Cell.solved 3, Cell.solved 7, Cell.solved 2, Cell.solved 8, Cell.solved 4, Cell.solved 2, Cell.solved 8, Cell.solved 7, Cell.solved 4, Cell.solved 1, Cell.solved 9, Cell.solved 6, Cell.solved 3, Cell.solved 5, Cell.solved 3, Cell.notSolved [4], Cell.solved 5, Cell.solved 2, Cell.solved 8, Cell.solved 6, Cell.solved 1, Cell.solved 7, Cell.solved 9]

/-- The canonical run, board after the promotions of round 10. -/
def qB10 : Board := [Cell.solved 5, Cell.solved 3, Cell.solved 4, Cell.solved 6, Cell.solved 7, Cell.solved 8, Cell.solved 9, Cell.solved 1, Cell.solved 2, Cell.solved 6, Cell.solved 7, Cell.solved 2, Cell.solved 1, Cell.solved 9, Cell.solved 5, Cell.solved 3, Cell.solved 4, Cell.solved 8, Cell.solved 1, Cell.solved 9, Cell.solved 8, Cell.solved 3, Cell.solved 4, Cell.solved 2, Cell.solved 5, Cell.solved 6, Cell.solved 7, Cell.solved 8, Cell.solved 5, Cell.solved 9, Cell.solved 7, Cell.solved 6, Cell.solved 1, Cell.solved 4, Cell.solved 2, Cell.solved 3, Cell.solved 4, Cell.solved 2, Cell.solved 6, Cell.solved 8, Cell.solved 5, Cell.solved 3, Cell.solved 7, Cell.solved 9, Cell.solved 1, Cell.solved 7, Cell.solved 1, Cell.solved 3, Cell.solved 9, Cell.solved 2, Cell.solved 4, Cell.solved 8, Cell.solved 5, Cell.solved 6, Cell.solved 9, Cell.solved 6, Cell.solved 1, Cell.solved 5, Cell.solved 3, Cell.solved 7, Cell.solved 2, Cell.solved 8, Cell.solved 4, Cell.solved 2, Cell.solved 8, Cell.solved 7, Cell.solved 4, Cell.solved 1, Cell.solved 9, Cell.solved 6, Cell.solved 3, Cell.solved 5, Cell.solved 3, Cell.solved 4, Cell.solved 5, Cell.solved 2, Cell.solved 8, Cell.solved 6, Cell.solved 1, Cell.solved 7, Cell.solved 9]

/-! ## Unfolding equations

These are proved by `rfl` now, while the definitions are still reducible;
immediately afterwards the loop- and scan-level definitions are made
irreducible so that no later proof accidentally asks the elaborator to
evaluate an 81-cell scan on a symbolic board. -/

theorem eliminatePass1_eq (b : Board) :
    eliminatePass1 b = (List.range 81).foldl pass1Step b := rfl

theorem allSolved_eq (b : Board) :
    allSolved b = ((List.range 81).all fun i => (getCell b i).isSolved) := rfl

theorem eliminatePass2_eq (b : Board) :
    eliminatePass2 b = (List.range 81).foldlM pass2Step (b, false) := rfl

theorem eliminate_def (b : Board) : eliminate b = eliminateF 82 b := rfl

theorem solve_def (b : Board) : solve b = solveF 164 b := rfl

theorem depth_first_search_def (b : Board) :
    depth_first_search b = dfsWith (solveF 164) b := rfl

theorem solveF_succ (fuel : Nat) (b : Board) :
    solveF (fuel + 1) b =
      (eliminate b).bind
        (fun p => if p.2 then .ok p.1 else dfsWith (solveF fuel) p.1) := rfl

theorem solveF_succ_solved {b b1 : Board} (fuel : Nat)
    (h : eliminate b = .ok (b1, true)) : solveF (fuel + 1) b = .ok b1 := by
  rw [solveF_succ, h]
  rfl

theorem solveF_succ_stall {b b1 : Board} (fuel : Nat)
    (h : eliminate b = .ok (b1, false)) :
    solveF (fuel + 1) b = dfsWith (solveF fuel) b1 := by
  rw [solveF_succ, h]
  rfl

theorem solveF_succ_error {b : Board} {msg : String} (fuel : Nat)
    (h : eliminate b = .error msg) : solveF (fuel + 1) b = .error msg := by
  rw [solveF_succ, h]
  rfl

theorem solveF_zero (b : Board) : solveF 0 b = .error "fuel exhausted" := rfl

theorem eliminateF_succ (fuel : Nat) (b : Board) :
    eliminateF (fuel + 1) b =
      (eliminateStep b).bind
        (Sum.elim (fun r => .ok r) (fun b2 => eliminateF fuel b2)) := rfl

theorem eliminateF_succ_error {b : Board} {msg : String} (fuel : Nat)
    (h : eliminateStep b = .error msg) : eliminateF (fuel + 1) b = .error msg := by
  rw [eliminateF_succ, h]
  rfl

theorem eliminateF_succ_done {b : Board} {r : Board × Bool} (fuel : Nat)
    (h : eliminateStep b = .ok (.inl r)) : eliminateF (fuel + 1) b = .ok r := by
  rw [eliminateF_succ, h]
  rfl

theorem eliminateF_succ_continue {b b2 : Board} (fuel : Nat)
    (h : eliminateStep b = .ok (.inr b2)) :
    eliminateF (fuel + 1) b = eliminateF fuel b2 := by
  rw [eliminateF_succ, h]
  rfl

theorem eliminateF_zero (b : Board) : eliminateF 0 b = .error "fuel exhausted" := rfl

theorem eliminateStep_all {b : Board} (hall : allSolved (eliminatePass1 b) = true) :
    eliminateStep b = .ok (.inl (eliminatePass1 b, true)) := by
  unfold eliminateStep
  rw [hall]
  rfl

theorem eliminateStep_err {b : Board} {msg : String}
    (hall : allSolved (eliminatePass1 b) = false)
    (hp : eliminatePass2 (eliminatePass1 b) = .error msg) :
    eliminateStep b = .error msg := by
  unfold eliminateStep
  rw [hall, hp]
  rfl

theorem eliminateStep_stall {b b2 : Board}
    (hall : allSolved (eliminatePass1 b) = false)
    (hp : eliminatePass2 (eliminatePass1 b) = .ok (b2, false)) :
    eliminateStep b = .ok (.inl (b2, false)) := by
  unfold eliminateStep
  rw [hall, hp]
  rfl

theorem eliminateStep_cont {b b2 : Board}
    (hall : allSolved (eliminatePass1 b) = false)
    (hp : eliminatePass2 (eliminatePass1 b) = .ok (b2, true)) :
    eliminateStep b = .ok (.inr b2) := by
  unfold eliminateStep
  rw [hall, hp]
  rfl

theorem tryHints_nil (f : Board → Except String Board) (b : Board) (i : Nat) :
    tryHints f b i [] = .error "all assumptions contradicted" := rfl

theorem tryHints_cons (f : Board → Except String Board) (b : Board)
    (i hint : Nat) (rest : List Nat) :
    tryHints f b i (hint :: rest) =
      match f (b.set i (.solved hint)) with
      | .ok b2 => .ok b2
      | .error _ => tryHints f b i rest := rfl

theorem tryHints_cons_ok {f : Board → Except String Board} {b b2 : Board}
    {i hint : Nat} {rest : List Nat} (h : f (b.set i (.solved hint)) = .ok b2) :
    tryHints f b i (hint :: rest) = .ok b2 := by
  rw [tryHints_cons, h]

theorem tryHints_cons_error {f : Board → Except String Board} {b : Board}
    {i hint : Nat} {rest : List Nat} {msg : String}
    (h : f (b.set i (.solved hint)) = .error msg) :
    tryHints f b i (hint :: rest) = tryHints f b i rest := by
  rw [tryHints_cons, h]

theorem dfsWith_none {b : Board} (f : Board → Except String Board)
    (h : selectCell b = none) : dfsWith f b = .ok b := by
  unfold dfsWith
  rw [h]

theorem dfsWith_some {b : Board} {i : Nat} {hints : List Nat}
    (f : Board → Except String Board) (h : selectCell b = some (i, hints)) :
    dfsWith f b = tryHints f b i hints := by
  unfold dfsWith
  rw [h]

attribute [irreducible] eliminatePass1 allSolved eliminatePass2 eliminateStep
attribute [irreducible] eliminateF eliminate solveF solve depth_first_search

/-! ## Basic facts about cells, indexing and peer index sets -/

theorem mem_rowIdxs {i j : Nat} (hi : i < 81) : j ∈ rowIdxs i ↔ j / 9 = i / 9 ∧ j < 81 := by
  simp only [rowIdxs, List.mem_range'_1]
  omega

theorem mem_colIdxs {i j : Nat} (hi : i < 81) : j ∈ colIdxs i ↔ j % 9 = i % 9 ∧ j < 81 := by
  simp only [colIdxs, List.mem_range']
  constructor
  · rintro ⟨k, hk, rfl⟩; omega
  · rintro ⟨h1, h2⟩; exact ⟨j / 9, by omega, by omega⟩

theorem mem_blockIdxs {i j : Nat} (hi : i < 81) :
    j ∈ blockIdxs i ↔ j / 9 / 3 = i / 9 / 3 ∧ j % 9 / 3 = i % 9 / 3 ∧ j < 81 := by
  simp only [blockIdxs, List.mem_flatMap, List.mem_map, List.mem_range'_1]
  constructor
  · rintro ⟨r, hr, c, hc, rfl⟩; omega
  · rintro ⟨h1, h2, h3⟩
    exact ⟨j / 9, by omega, ⟨j % 9, by omega, by omega⟩⟩

theorem peer_symm {i j : Nat} (hi : i < 81) (hj : j < 81) (h : Peer i j) : Peer j i := by
  rcases h with h | h | h
  · exact Or.inl ((mem_rowIdxs hj).2 ⟨((mem_rowIdxs hi).1 h).1.symm, hi⟩)
  · exact Or.inr (Or.inl ((mem_colIdxs hj).2 ⟨((mem_colIdxs hi).1 h).1.symm, hi⟩))
  · refine Or.inr (Or.inr ((mem_blockIdxs hj).2 ?_))
    obtain ⟨h1, h2, _⟩ := (mem_blockIdxs hi).1 h
    exact ⟨h1.symm, h2.symm, hi⟩

theorem peer_lt {i j : Nat} (hi : i < 81) (h : Peer i j) : j < 81 := by
  rcases h with h | h | h
  · exact ((mem_rowIdxs hi).1 h).2
  · exact ((mem_colIdxs hi).1 h).2
  · exact ((mem_blockIdxs hi).1 h).2.2

theorem getCell_set_self {b : Board} {i : Nat} (h : i < b.length) (c : Cell) :
    getCell (b.set i c) i = c := by
  simp [getCell, List.getD_eq_getElem?_getD, List.getElem?_set_self h]

theorem getCell_set_ne {b : Board} {i j : Nat} (h : i ≠ j) (c : Cell) :
    getCell (b.set i c) j = getCell b j := by
  simp [getCell, List.getD_eq_getElem?_getD, List.getElem?_set_ne h]

theorem getCell_of_length_le {b : Board} {i : Nat} (h : b.length ≤ i) :
    getCell b i = .solved 0 := by
  simp [getCell, List.getD_eq_getElem?_getD, List.getElem?_eq_none h]

theorem lt_length_of_notSolved {b : Board} {i : Nat} {h : List Nat}
    (hc : getCell b i = .notSolved h) : i < b.length := by
  by_contra hlt
  rw [getCell_of_length_le (by omega)] at hc
  exact Cell.noConfusion hc

/-! ## The shrinking relation: what one scan step can do to the board -/

theorem Shrinks.refl (b : Board) : Shrinks b b :=
  ⟨rfl, fun _ => ⟨fun _ hv => hv, fun h' hh => ⟨h', hh, List.Sublist.refl h'⟩⟩⟩

theorem Shrinks.trans {a b c : Board} (h1 : Shrinks a b) (h2 : Shrinks b c) : Shrinks a c := by
  refine ⟨h2.1.trans h1.1, fun i => ⟨fun v hv => (h2.2 i).1 v ((h1.2 i).1 v hv), ?_⟩⟩
  intro h' hh
  obtain ⟨hm, hmn, hsub⟩ := (h2.2 i).2 h' hh
  obtain ⟨h0, h0n, hsub0⟩ := (h1.2 i).2 hm hmn
  exact ⟨h0, h0n, hsub.trans hsub0⟩

theorem eraseHint_shrinks (b : Board) (j a : Nat) : Shrinks b (eraseHint b j a) := by
  unfold eraseHint
  rcases hc : getCell b j with h | v
  · refine ⟨List.length_set .., fun i => ⟨fun v hv => ?_, fun h' hh => ?_⟩⟩
    · rcases eq_or_ne j i with rfl | hne
      · rw [hc] at hv; exact Cell.noConfusion hv
      · rwa [getCell_set_ne hne]
    · rcases eq_or_ne j i with rfl | hne
      · rw [getCell_set_self (lt_length_of_notSolved hc)] at hh
        cases hh
        exact ⟨h, hc, List.erase_sublist a h⟩
      · rw [getCell_set_ne hne] at hh
        exact ⟨h', hh, List.Sublist.refl h'⟩
  · exact Shrinks.refl b

theorem eraseHints_shrinks (b : Board) (idxs : List Nat) (a : Nat) :
    Shrinks b (eraseHints b idxs a) := by
  induction idxs generalizing b with
  | nil => exact Shrinks.refl b
  | cons j rest ih => exact (eraseHint_shrinks b j a).trans (ih (eraseHint b j a))

theorem pass1Step_shrinks (b : Board) (i : Nat) : Shrinks b (pass1Step b i) := by
  unfold pass1Step
  rcases getCell b i with h | v
  · exact Shrinks.refl b
  · exact ((eraseHints_shrinks ..).trans (eraseHints_shrinks ..)).trans (eraseHints_shrinks ..)

theorem foldl_shrinks {step : Board → Nat → Board}
    (hstep : ∀ b i, Shrinks b (step b i)) (l : List Nat) (b : Board) :
    Shrinks b (l.foldl step b) := by
  induction l generalizing b with
  | nil => exact Shrinks.refl b
  | cons j rest ih => exact (hstep b j).trans (ih (step b j))

theorem eliminatePass1_shrinks (b : Board) : Shrinks b (eliminatePass1 b) := by
  rw [eliminatePass1_eq]
  exact foldl_shrinks pass1Step_shrinks _ b

/-! ## Counting `NotSolved` cells, and shape preservation of the solved-scan -/

theorem getElem?_eq_getCell {b : Board} {i : Nat} (h : i < b.length) :
    b[i]? = some (getCell b i) := by
  simp [getCell, List.getD_eq_getElem?_getD, List.getElem?_eq_getElem h]

theorem getElem_eq_getCell {b : Board} {i : Nat} (h : i < b.length) :
    b[i] = getCell b i := by
  have := getElem?_eq_getCell h
  rw [List.getElem?_eq_getElem h] at this
  exact Option.some.inj this

theorem countNS_eq (b : Board) :
    countNS b = List.countP (fun x => !x) (b.map Cell.isSolved) := by
  rw [countNS, List.countP_map]
  rfl

theorem countNS_congr {b b' : Board} (hlen : b'.length = b.length)
    (hsol : ∀ i, (getCell b' i).isSolved = (getCell b i).isSolved) :
    countNS b' = countNS b := by
  rw [countNS_eq, countNS_eq]
  congr 1
  apply List.ext_getElem?
  intro n
  rcases Nat.lt_or_ge n b.length with hlt | hge
  · rw [List.getElem?_map, List.getElem?_map, getElem?_eq_getCell hlt,
      getElem?_eq_getCell (by omega : n < b'.length)]
    simp [hsol n]
  · rw [List.getElem?_map, List.getElem?_map,
      List.getElem?_eq_none (show b'.length ≤ n by omega),
      List.getElem?_eq_none (show b.length ≤ n by omega)]

theorem countP_mono_pointwise {α : Type} {p : α → Bool} {d : α} :
    ∀ (l l' : List α), l'.length = l.length →
      (∀ i, p (l'.getD i d) = true → p (l.getD i d) = true) →
      l'.countP p ≤ l.countP p := by
  intro l
  induction l with
  | nil => intro l' hlen _; rw [List.length_nil, List.length_eq_zero] at hlen; simp [hlen]
  | cons x xs ih =>
    intro l' hlen hp
    match l' with
    | [] => simp
    | y :: ys =>
      rw [List.countP_cons, List.countP_cons]
      have h0 := hp 0
      simp only [List.getD_cons_zero] at h0
      have htail := ih ys (by simpa using hlen) fun i => by
        have := hp (i + 1)
        simpa using this
      cases hy : p y
      · rw [if_neg (by simp)]
        split <;> omega
      · have hx : p x = true := h0 hy
        rw [if_pos rfl, if_pos hx]
        omega

theorem countNS_le_of_shrinks {b b' : Board} (h : Shrinks b b') : countNS b' ≤ countNS b := by
  rw [countNS, countNS]
  refine countP_mono_pointwise (d := Cell.solved 0) b b' h.1 fun i => ?_
  rcases hc : getCell b' i with hs | v
  · rcases (h.2 i).2 hs hc with ⟨h0, h0c, _⟩
    intro _
    show (!(getCell b i).isSolved) = true
    rw [h0c]
    rfl
  · intro hfalse
    rw [show (b'.getD i (Cell.solved 0)) = getCell b' i from rfl, hc] at hfalse
    simp [Cell.isSolved] at hfalse

theorem isSolved_eraseHint (b : Board) (j a i : Nat) :
    (getCell (eraseHint b j a) i).isSolved = (getCell b i).isSolved := by
  unfold eraseHint
  rcases hc : getCell b j with h | v
  · rcases eq_or_ne j i with rfl | hne
    · rw [getCell_set_self (lt_length_of_notSolved hc), hc]
      rfl
    · rw [getCell_set_ne hne]
  · rfl

theorem isSolved_eraseHints (idxs : List Nat) (b : Board) (a i : Nat) :
    (getCell (eraseHints b idxs a) i).isSolved = (getCell b i).isSolved := by
  induction idxs generalizing b with
  | nil => rfl
  | cons j rest ih =>
    show (getCell (eraseHints (eraseHint b j a) rest a) i).isSolved = _
    rw [ih (eraseHint b j a), isSolved_eraseHint]

theorem isSolved_pass1Step (b : Board) (k i : Nat) :
    (getCell (pass1Step b k) i).isSolved = (getCell b i).isSolved := by
  unfold pass1Step
  rcases getCell b k with h | v
  · rfl
  · rw [isSolved_eraseHints, isSolved_eraseHints, isSolved_eraseHints]

theorem isSolved_eliminatePass1 (b : Board) (i : Nat) :
    (getCell (eliminatePass1 b) i).isSolved = (getCell b i).isSolved := by
  rw [eliminatePass1_eq]
  generalize List.range 81 = l
  induction l generalizing b with
  | nil => rfl
  | cons k rest ih =>
    show (getCell (List.foldl pass1Step (pass1Step b k) rest) i).isSolved = _
    rw [ih (pass1Step b k), isSolved_pass1Step]

theorem length_eliminatePass1 (b : Board) : (eliminatePass1 b).length = b.length :=
  (eliminatePass1_shrinks b).1

theorem countNS_eliminatePass1 (b : Board) : countNS (eliminatePass1 b) = countNS b :=
  countNS_congr (length_eliminatePass1 b) (isSolved_eliminatePass1 b)

theorem allSolved_iff {b : Board} :
    allSolved b = true ↔ ∀ i < 81, (getCell b i).isSolved = true := by
  rw [allSolved_eq]
  simp [List.all_eq_true, List.mem_range]

theorem allSolved_congr {b b' : Board}
    (hsol : ∀ i, (getCell b' i).isSolved = (getCell b i).isSolved) :
    allSolved b' = allSolved b := by
  rw [allSolved_eq, allSolved_eq]
  exact congrArg (List.all _) (funext fun i => hsol i)

theorem allSolved_eliminatePass1 (b : Board) : allSolved (eliminatePass1 b) = allSolved b :=
  allSolved_congr (isSolved_eliminatePass1 b)

theorem countNS_set_solved {b : Board} {i : Nat} {h : List Nat} {v : Nat}
    (hc : getCell b i = .notSolved h) :
    countNS (b.set i (.solved v)) + 1 = countNS b := by
  have hlt := lt_length_of_notSolved hc
  have hmem : Cell.notSolved h ∈ b := by
    rw [← hc, ← getElem_eq_getCell hlt]
    exact List.getElem_mem hlt
  have hpos : 0 < countNS b := by
    rw [countNS]
    rw [List.countP_pos_iff]
    exact ⟨Cell.notSolved h, hmem, rfl⟩
  rw [countNS, countNS, List.countP_set _ _ _ _ hlt, getElem_eq_getCell hlt, hc]
  rw [if_pos (show (fun c => !c.isSolved) (Cell.notSolved h) = true from rfl)]
  rw [if_neg (show ¬ (fun c => !c.isSolved) (Cell.solved v) = true by simp [Cell.isSolved])]
  rw [countNS] at hpos
  omega

theorem set_solved_shrinks {b : Board} {i : Nat} {h : List Nat} {v : Nat}
    (hc : getCell b i = .notSolved h) : Shrinks b (b.set i (.solved v)) := by
  refine ⟨List.length_set .., fun k => ⟨fun u hu => ?_, fun h' hh => ?_⟩⟩
  · rcases eq_or_ne i k with rfl | hne
    · rw [hc] at hu; exact Cell.noConfusion hu
    · rwa [getCell_set_ne hne]
  · rcases eq_or_ne i k with rfl | hne
    · rw [getCell_set_self (lt_length_of_notSolved hc)] at hh
      exact Cell.noConfusion hh
    · rw [getCell_set_ne hne] at hh
      exact ⟨h', hh, List.Sublist.refl h'⟩

theorem findDup_eq_none {b : Board} {idxs : List Nat} {hint : Nat} :
    findDup b idxs hint = none ↔
      ∀ j ∈ idxs, ∀ n, getCell b j = .solved n → n ≠ hint := by
  rw [findDup, List.find?_eq_none]
  constructor
  · intro hall j hj n hc heq
    have := hall j hj
    rw [hc] at this
    simp [heq] at this
  · intro hall j hj
    rcases hc : getCell b j with h | n
    · simp
    · simpa using hall j hj n hc

/-! ## The promotion-scan: case analysis and fold invariants -/

theorem exceptBind_ok {e a c : Type} (v : a) (g : a → Except e c) :
    (Except.ok v >>= g) = g v := rfl

theorem exceptBind_error {e a c : Type} (msg : e) (g : a → Except e c) :
    ((Except.error msg : Except e a) >>= g) = .error msg := rfl

theorem eq_singleton_of_length_one {h : List Nat} (hl : h.length = 1) : h = [h.headD 0] := by
  cases h with
  | nil => simp at hl
  | cons x t =>
    cases t with
    | nil => rfl
    | cons y t2 => simp at hl

theorem pass2Step_cases (s : Board × Bool) (i : Nat) :
    pass2Step s i = .ok s ∨
    (∃ h, getCell s.1 i = .notSolved h ∧ h.length = 1 ∧
      findDup s.1 (rowIdxs i) (h.headD 0) = none ∧
      findDup s.1 (colIdxs i) (h.headD 0) = none ∧
      findDup s.1 (blockIdxs i) (h.headD 0) = none ∧
      pass2Step s i = .ok (s.1.set i (.solved (h.headD 0)), true)) ∨
    (∃ msg, pass2Step s i = .error msg) := by
  have hun : pass2Step s i = match getCell s.1 i with
    | .solved _ => .ok s
    | .notSolved hints =>
      if hints.isEmpty then .error s!"unsolvable cell at {i}"
      else if hints.length != 1 then .ok s
      else
        let hint := hints.headD 0
        match findDup s.1 (rowIdxs i) hint with
        | some j => .error s!"duplicate cell at {j}"
        | none =>
        match findDup s.1 (colIdxs i) hint with
        | some j => .error s!"duplicate cell at {j}"
        | none =>
        match findDup s.1 (blockIdxs i) hint with
        | some j => .error s!"duplicate cell at ({j % 9}, {j / 9})"
        | none => .ok (s.1.set i (.solved hint), true) := rfl
  rcases hc : getCell s.1 i with h | v
  · rw [hc] at hun
    dsimp only at hun
    by_cases he : h.isEmpty = true
    · rw [if_pos he] at hun
      exact Or.inr (Or.inr ⟨_, hun⟩)
    · rw [if_neg he] at hun
      by_cases hlen : (h.length != 1) = true
      · rw [if_pos hlen] at hun
        exact Or.inl hun
      · rw [if_neg hlen] at hun
        have hlen1 : h.length = 1 := by simpa using hlen
        rcases hrow : findDup s.1 (rowIdxs i) (h.headD 0) with _ | j
        · rw [hrow] at hun
          rcases hcol : findDup s.1 (colIdxs i) (h.headD 0) with _ | j
          · rw [hcol] at hun
            rcases hblk : findDup s.1 (blockIdxs i) (h.headD 0) with _ | j
            · rw [hblk] at hun
              exact Or.inr (Or.inl ⟨h, rfl, hlen1, hrow, hcol, hblk, hun⟩)
            · rw [hblk] at hun
              exact Or.inr (Or.inr ⟨_, hun⟩)
          · rw [hcol] at hun
            exact Or.inr (Or.inr ⟨_, hun⟩)
        · rw [hrow] at hun
          exact Or.inr (Or.inr ⟨_, hun⟩)
  · rw [hc] at hun
    dsimp only at hun
    exact Or.inl hun

theorem pass2_fold_struct :
    ∀ (l : List Nat) (s : Board × Bool) (b2 : Board) (ch2 : Bool),
      List.foldlM pass2Step s l = .ok (b2, ch2) →
      Shrinks s.1 b2 ∧ countNS b2 ≤ countNS s.1 ∧
        (ch2 = false → b2 = s.1 ∧ s.2 = false) ∧
        (s.2 = false → ch2 = true → countNS b2 < countNS s.1) := by
  intro l
  induction l with
  | nil =>
    intro s b2 ch2 hfold
    rw [List.foldlM_nil] at hfold
    have hs : s = (b2, ch2) := Except.ok.inj hfold
    subst hs
    refine ⟨Shrinks.refl _, le_refl _, fun hch => ⟨rfl, hch⟩, fun h1 h2 => ?_⟩
    have h1' : ch2 = false := h1
    rw [h1'] at h2
    cases h2
  | cons i rest ih =>
    intro s b2 ch2 hfold
    rw [List.foldlM_cons] at hfold
    rcases pass2Step_cases s i with hstep | ⟨h, hc, hlen, _, _, _, hstep⟩ | ⟨msg, hstep⟩
    · rw [hstep, exceptBind_ok] at hfold
      exact ih s b2 ch2 hfold
    · rw [hstep, exceptBind_ok] at hfold
      have hIH := ih (s.1.set i (.solved (h.headD 0)), true) b2 ch2 hfold
      dsimp only at hIH
      have hshr : Shrinks s.1 (s.1.set i (.solved (h.headD 0))) := set_solved_shrinks hc
      have hcnt : countNS (s.1.set i (.solved (h.headD 0))) + 1 = countNS s.1 :=
        countNS_set_solved hc
      have hcnt2 := hIH.2.1
      refine ⟨hshr.trans hIH.1, by omega, fun hch => ?_, fun _ _ => by omega⟩
      rcases hIH.2.2.1 hch with ⟨_, hcontra⟩
      cases hcontra
    · rw [hstep, exceptBind_error] at hfold
      cases hfold

theorem eliminatePass2_struct {b : Board} {b2 : Board} {ch2 : Bool}
    (hp : eliminatePass2 b = .ok (b2, ch2)) :
    Shrinks b b2 ∧ countNS b2 ≤ countNS b ∧ (ch2 = false → b2 = b) ∧
      (ch2 = true → countNS b2 < countNS b) := by
  rw [eliminatePass2_eq] at hp
  have := pass2_fold_struct (List.range 81) (b, false) b2 ch2 hp
  exact ⟨this.1, this.2.1, fun h => (this.2.2.1 h).1, fun h => this.2.2.2 rfl h⟩

/-! ## The elimination loop: result shape and fuel irrelevance -/

theorem eliminateStep_cases (b : Board) :
    (allSolved (eliminatePass1 b) = true ∧
      eliminateStep b = .ok (.inl (eliminatePass1 b, true))) ∨
    (allSolved (eliminatePass1 b) = false ∧
      eliminatePass2 (eliminatePass1 b) = .ok (eliminatePass1 b, false) ∧
      eliminateStep b = .ok (.inl (eliminatePass1 b, false))) ∨
    (allSolved (eliminatePass1 b) = false ∧ ∃ b2,
      eliminatePass2 (eliminatePass1 b) = .ok (b2, true) ∧
      countNS b2 < countNS b ∧ eliminateStep b = .ok (.inr b2)) ∨
    (∃ msg, eliminateStep b = .error msg) := by
  by_cases hall : allSolved (eliminatePass1 b) = true
  · exact Or.inl ⟨hall, eliminateStep_all hall⟩
  · have hallf : allSolved (eliminatePass1 b) = false := eq_false_of_ne_true hall
    rcases hp : eliminatePass2 (eliminatePass1 b) with msg | ⟨b2, changed⟩
    · exact Or.inr (Or.inr (Or.inr ⟨msg, eliminateStep_err hallf hp⟩))
    · rcases eliminatePass2_struct hp with ⟨hshr2, hcnt2, hunch, hdec⟩
      cases changed with
      | false =>
        have hb2 : b2 = eliminatePass1 b := hunch rfl
        subst hb2
        exact Or.inr (Or.inl ⟨hallf, rfl, eliminateStep_stall hallf hp⟩)
      | true =>
        refine Or.inr (Or.inr (Or.inl ⟨hallf, b2, rfl, ?_, eliminateStep_cont hallf hp⟩))
        have := hdec rfl
        rw [countNS_eliminatePass1] at this
        exact this

theorem eliminateF_ok_spec :
    ∀ (fuel : Nat) (b b' : Board) (flag : Bool),
      eliminateF fuel b = .ok (b', flag) →
      Shrinks b b' ∧ countNS b' ≤ countNS b ∧
        (flag = true → allSolved b' = true) ∧
        (flag = false → allSolved b' = false ∧
          ∃ b0, b' = eliminatePass1 b0 ∧ Shrinks b b0) := by
  intro fuel
  induction fuel with
  | zero =>
    intro b b' flag h
    rw [eliminateF_zero] at h
    cases h
  | succ fuel ih =>
    intro b b' flag h
    rcases eliminateStep_cases b with ⟨hall, hstep⟩ | ⟨hall, hp, hstep⟩ |
      ⟨hall, b2, hp, hcnt, hstep⟩ | ⟨msg, hstep⟩
    · rw [eliminateF_succ_done fuel hstep] at h
      cases h
      exact ⟨eliminatePass1_shrinks b, by rw [countNS_eliminatePass1], fun _ => hall,
        fun hfalse => by cases hfalse⟩
    · rw [eliminateF_succ_done fuel hstep] at h
      cases h
      refine ⟨eliminatePass1_shrinks b, by rw [countNS_eliminatePass1], ?_,
        fun _ => ⟨hall, b, rfl, Shrinks.refl b⟩⟩
      intro htrue
      exact Bool.noConfusion htrue
    · rw [eliminateF_succ_continue fuel hstep] at h
      have hIH := ih b2 b' flag h
      rcases eliminatePass2_struct hp with ⟨hshr2, _, _, _⟩
      have hle := hIH.2.1
      have hshrb2 : Shrinks b b2 := (eliminatePass1_shrinks b).trans hshr2
      refine ⟨hshrb2.trans hIH.1, by omega, hIH.2.2.1, fun hf => ?_⟩
      obtain ⟨hns, b0, hb0, hshr0⟩ := hIH.2.2.2 hf
      exact ⟨hns, b0, hb0, hshrb2.trans hshr0⟩
    · rw [eliminateF_succ_error fuel hstep] at h
      cases h

theorem eliminateF_fuel :
    ∀ (n fuel fuel' : Nat) (b : Board), countNS b ≤ n → n + 1 ≤ fuel → n + 1 ≤ fuel' →
      eliminateF fuel b = eliminateF fuel' b := by
  intro n
  induction n with
  | zero =>
    intro fuel fuel' b hcnt hf hf'
    match fuel, fuel' with
    | f + 1, f' + 1 =>
      rcases eliminateStep_cases b with ⟨_, hstep⟩ | ⟨_, _, hstep⟩ |
        ⟨_, b2, _, hlt, hstep⟩ | ⟨msg, hstep⟩
      · rw [eliminateF_succ_done f hstep, eliminateF_succ_done f' hstep]
      · rw [eliminateF_succ_done f hstep, eliminateF_succ_done f' hstep]
      · omega
      · rw [eliminateF_succ_error f hstep, eliminateF_succ_error f' hstep]
  | succ n ih =>
    intro fuel fuel' b hcnt hf hf'
    match fuel, fuel' with
    | f + 1, f' + 1 =>
      rcases eliminateStep_cases b with ⟨_, hstep⟩ | ⟨_, _, hstep⟩ |
        ⟨_, b2, _, hlt, hstep⟩ | ⟨msg, hstep⟩
      · rw [eliminateF_succ_done f hstep, eliminateF_succ_done f' hstep]
      · rw [eliminateF_succ_done f hstep, eliminateF_succ_done f' hstep]
      · rw [eliminateF_succ_continue f hstep, eliminateF_succ_continue f' hstep]
        exact ih f f' b2 (by omega) (by omega) (by omega)
      · rw [eliminateF_succ_error f hstep, eliminateF_succ_error f' hstep]

theorem eliminate_eq_eliminateF {b : Board} {fuel : Nat} (h81 : b.length = 81)
    (hfuel : 82 ≤ fuel) : eliminate b = eliminateF fuel b := by
  have hcnt : countNS b ≤ 81 := by
    rw [countNS]
    calc b.countP _ ≤ b.length := List.countP_le_length _
    _ = 81 := h81
  rw [eliminate_def]
  exact eliminateF_fuel 81 82 fuel b hcnt (by omega) (by omega)

/-! ## The cell-selection loop of `depth_first_search` -/

theorem selGo_all_solved :
    ∀ (cells : List Cell) (n : Nat), (∀ c ∈ cells, c.isSolved = true) →
      List.foldl selStep none (List.enumFrom n cells) = none := by
  intro cells
  induction cells with
  | nil => intro n _; rfl
  | cons c rest ih =>
    intro n hall
    have hc : c.isSolved = true := hall c (List.mem_cons_self ..)
    rcases c with h | v
    · simp [Cell.isSolved] at hc
    · show List.foldl selStep (selStep none (n, Cell.solved v)) (List.enumFrom (n + 1) rest) = none
      exact ih (n + 1) fun x hx => hall x (List.mem_cons_of_mem _ hx)

theorem selGo_spec :
    ∀ (cells : List Cell) (n : Nat) (acc : Option (Nat × List Nat)),
      (∀ q1 q2, acc = some (q1, q2) → q1 < n) →
      (List.foldl selStep acc (List.enumFrom n cells) = none →
        acc = none ∧ ∀ c ∈ cells, c.isSolved = true) ∧
      (∀ i h, List.foldl selStep acc (List.enumFrom n cells) = some (i, h) →
        (acc = some (i, h) ∨
          (n ≤ i ∧ i - n < cells.length ∧ cells.getD (i - n) (.solved 0) = .notSolved h)) ∧
        (∀ k h2, cells.getD k (.solved 0) = .notSolved h2 →
          h.length ≤ h2.length ∧ (n + k < i → h.length < h2.length)) ∧
        (∀ q1 q2, acc = some (q1, q2) →
          h.length ≤ q2.length ∧ (q1 < i → h.length < q2.length))) := by
  intro cells
  induction cells with
  | nil =>
    intro n acc hacc
    constructor
    · intro hres
      exact ⟨hres, by simp⟩
    · intro i h hres
      replace hres : acc = some (i, h) := hres
      refine ⟨Or.inl hres, ?_, ?_⟩
      · intro k h2 hkd
        rw [List.getD] at hkd
        simp at hkd
      · intro q1 q2 hq
        rw [hq] at hres
        cases hres
        exact ⟨le_refl _, fun hlt => absurd hlt (by omega)⟩
  | cons c rest ih =>
    intro n acc hacc
    have hunf : List.enumFrom n (c :: rest) = (n, c) :: List.enumFrom (n + 1) rest := rfl
    rw [hunf, List.foldl_cons]
    rcases c with hc | v
    · -- NotSolved head: the accumulator is definitely `some` afterwards
      rcases acc with _ | ⟨q1, q2⟩
      · have hstep : selStep none (n, Cell.notSolved hc) = some (n, hc) := rfl
        rw [hstep]
        have hIH := ih (n + 1) (some (n, hc)) (by intro a b hq; cases hq; omega)
        constructor
        · intro hres
          obtain ⟨ha, _⟩ := hIH.1 hres
          cases ha
        · intro i h hres
          obtain ⟨hpos, hmin, haccc⟩ := hIH.2 i h hres
          have hacq := haccc n hc rfl
          refine ⟨?_, ?_, ?_⟩
          · rcases hpos with ha | ⟨h1, h2, h3⟩
            · cases ha
              refine Or.inr ⟨le_refl _, by simp, ?_⟩
              rw [Nat.sub_self, List.getD_cons_zero]
            · refine Or.inr ⟨by omega, by simp; omega, ?_⟩
              have heq : i - n = (i - (n + 1)) + 1 := by omega
              rw [heq, List.getD_cons_succ]
              exact h3
          · intro k h2 hkd
            cases k with
            | zero =>
              rw [List.getD_cons_zero] at hkd
              cases hkd
              exact ⟨hacq.1, fun hlt => hacq.2 (by omega)⟩
            | succ k0 =>
              rw [List.getD_cons_succ] at hkd
              have := hmin k0 h2 hkd
              exact ⟨this.1, fun hlt => this.2 (by omega)⟩
          · intro a b hq
            cases hq
      · by_cases himp : hc.length < q2.length
        · have hstep : selStep (some (q1, q2)) (n, Cell.notSolved hc) = some (n, hc) := by
            simp [selStep, himp]
          rw [hstep]
          have hIH := ih (n + 1) (some (n, hc)) (by intro a b hq; cases hq; omega)
          constructor
          · intro hres
            obtain ⟨ha, _⟩ := hIH.1 hres
            cases ha
          · intro i h hres
            obtain ⟨hpos, hmin, haccc⟩ := hIH.2 i h hres
            have hacq := haccc n hc rfl
            refine ⟨?_, ?_, ?_⟩
            · rcases hpos with ha | ⟨h1, h2, h3⟩
              · cases ha
                refine Or.inr ⟨le_refl _, by simp, ?_⟩
                rw [Nat.sub_self, List.getD_cons_zero]
              · refine Or.inr ⟨by omega, by simp; omega, ?_⟩
                have heq : i - n = (i - (n + 1)) + 1 := by omega
                rw [heq, List.getD_cons_succ]
                exact h3
            · intro k h2 hkd
              cases k with
              | zero =>
                rw [List.getD_cons_zero] at hkd
                cases hkd
                exact ⟨hacq.1, fun hlt => hacq.2 (by omega)⟩
              | succ k0 =>
                rw [List.getD_cons_succ] at hkd
                have := hmin k0 h2 hkd
                exact ⟨this.1, fun hlt => this.2 (by omega)⟩
            · intro a b hq
              cases hq
              exact ⟨by omega, fun _ => by omega⟩
        · have hstep : selStep (some (q1, q2)) (n, Cell.notSolved hc) = some (q1, q2) := by
            simp [selStep, himp]
          rw [hstep]
          have hIH := ih (n + 1) (some (q1, q2))
            (by intro a b hq; cases hq; have := hacc q1 q2 rfl; omega)
          constructor
          · intro hres
            obtain ⟨ha, _⟩ := hIH.1 hres
            cases ha
          · intro i h hres
            obtain ⟨hpos, hmin, haccc⟩ := hIH.2 i h hres
            have hacq := haccc q1 q2 rfl
            have hq1n : q1 < n := hacc q1 q2 rfl
            refine ⟨?_, ?_, fun a b hq => by cases hq; exact hacq⟩
            · rcases hpos with ha | ⟨h1, h2, h3⟩
              · exact Or.inl ha
              · refine Or.inr ⟨by omega, by simp; omega, ?_⟩
                have heq : i - n = (i - (n + 1)) + 1 := by omega
                rw [heq, List.getD_cons_succ]
                exact h3
            · intro k h2 hkd
              cases k with
              | zero =>
                rw [List.getD_cons_zero] at hkd
                cases hkd
                refine ⟨by omega, fun hlt => ?_⟩
                have := hacq.2 (by omega)
                omega
              | succ k0 =>
                rw [List.getD_cons_succ] at hkd
                have := hmin k0 h2 hkd
                exact ⟨this.1, fun hlt => this.2 (by omega)⟩
    · -- Solved head: the step keeps the accumulator
      have hstep : selStep acc (n, Cell.solved v) = acc := by
        rcases acc with _ | q <;> rfl
      rw [hstep]
      have hIH := ih (n + 1) acc (by intro a b hq; have := hacc a b hq; omega)
      constructor
      · intro hres
        obtain ⟨ha, hall⟩ := hIH.1 hres
        refine ⟨ha, ?_⟩
        intro x hx
        rcases List.mem_cons.1 hx with rfl | hx2
        · rfl
        · exact hall x hx2
      · intro i h hres
        obtain ⟨hpos, hmin, haccc⟩ := hIH.2 i h hres
        refine ⟨?_, ?_, haccc⟩
        · rcases hpos with ha | ⟨h1, h2, h3⟩
          · exact Or.inl ha
          · refine Or.inr ⟨by omega, by simp; omega, ?_⟩
            have heq : i - n = (i - (n + 1)) + 1 := by omega
            rw [heq, List.getD_cons_succ]
            exact h3
        · intro k h2 hkd
          cases k with
          | zero =>
            rw [List.getD_cons_zero] at hkd
            cases hkd
          | succ k0 =>
            rw [List.getD_cons_succ] at hkd
            have := hmin k0 h2 hkd
            exact ⟨this.1, fun hlt => this.2 (by omega)⟩

theorem selectCell_eq_foldl (b : Board) :
    selectCell b = List.foldl selStep none (List.enumFrom 0 b) := rfl

theorem selectCell_none_iff {b : Board} :
    selectCell b = none ↔ ∀ c ∈ b, c.isSolved = true := by
  constructor
  · intro hres
    exact ((selGo_spec b 0 none (by intro a b hq; cases hq)).1 hres).2
  · intro hall
    rw [selectCell_eq_foldl]
    exact selGo_all_solved b 0 hall

theorem selectCell_some_spec {b : Board} {i : Nat} {h : List Nat}
    (hs : selectCell b = some (i, h)) :
    getCell b i = .notSolved h ∧
      ∀ k h2, getCell b k = .notSolved h2 →
        h.length ≤ h2.length ∧ (k < i → h.length < h2.length) := by
  rw [selectCell_eq_foldl] at hs
  obtain ⟨hpos, hmin, _⟩ := (selGo_spec b 0 none (by intro a b hq; cases hq)).2 i h hs
  constructor
  · rcases hpos with ha | ⟨_, _, h3⟩
    · cases ha
    · have hi0 : i - 0 = i := by omega
      rw [hi0] at h3
      exact h3
  · intro k h2 hkd
    have := hmin k h2 hkd
    exact ⟨this.1, fun hlt => this.2 (by omega)⟩

/-! ## Solver-level facts: fuel irrelevance, shrinking, full solutions -/

theorem countNS_le_length (b : Board) : countNS b ≤ b.length :=
  List.countP_le_length _

theorem mem_of_getCell {b : Board} {i : Nat} (h : i < b.length) : getCell b i ∈ b := by
  rw [← getElem_eq_getCell h]
  exact List.getElem_mem h

theorem countNS_pos_of_notSolved {b : Board} {i : Nat} {h : List Nat}
    (hc : getCell b i = .notSolved h) : 0 < countNS b := by
  rw [countNS, List.countP_pos_iff]
  exact ⟨Cell.notSolved h, hc ▸ mem_of_getCell (lt_length_of_notSolved hc), rfl⟩

theorem allSolved_of_forall_mem {b : Board} (hall : ∀ c ∈ b, c.isSolved = true) :
    allSolved b = true := by
  rw [allSolved_iff]
  intro i _
  rcases Nat.lt_or_ge i b.length with hlt | hge
  · exact hall _ (mem_of_getCell hlt)
  · rw [getCell_of_length_le hge]
    rfl

theorem eliminate_ok_spec {b b' : Board} {flag : Bool} (h : eliminate b = .ok (b', flag)) :
    Shrinks b b' ∧ countNS b' ≤ countNS b ∧
      (flag = true → allSolved b' = true) ∧
      (flag = false → allSolved b' = false ∧
        ∃ b0, b' = eliminatePass1 b0 ∧ Shrinks b b0) := by
  rw [eliminate_def] at h
  exact eliminateF_ok_spec 82 b b' flag h

theorem tryHints_congr {f1 f2 : Board → Except String Board} {b : Board} {i : Nat} :
    ∀ hs : List Nat,
      (∀ hint ∈ hs, f1 (b.set i (.solved hint)) = f2 (b.set i (.solved hint))) →
      tryHints f1 b i hs = tryHints f2 b i hs := by
  intro hs
  induction hs with
  | nil => intro _; rfl
  | cons hint rest ih =>
    intro hcong
    have h0 := hcong hint (List.mem_cons_self ..)
    rcases hres : f1 (b.set i (.solved hint)) with msg | b2
    · rw [tryHints_cons_error hres, tryHints_cons_error (h0 ▸ hres)]
      exact ih fun x hx => hcong x (List.mem_cons_of_mem _ hx)
    · rw [tryHints_cons_ok hres, tryHints_cons_ok (h0 ▸ hres)]

theorem dfsWith_congr {f1 f2 : Board → Except String Board} {b : Board}
    (hcong : ∀ i hints, selectCell b = some (i, hints) →
      ∀ hint ∈ hints, f1 (b.set i (.solved hint)) = f2 (b.set i (.solved hint))) :
    dfsWith f1 b = dfsWith f2 b := by
  rcases hsel : selectCell b with _ | ⟨i, hints⟩
  · rw [dfsWith_none _ hsel, dfsWith_none _ hsel]
  · rw [dfsWith_some _ hsel, dfsWith_some _ hsel]
    exact tryHints_congr hints (hcong i hints hsel)

theorem solveF_fuel :
    ∀ (n fuel fuel' : Nat) (b : Board), countNS b ≤ n →
      2 * n + 2 ≤ fuel → 2 * n + 2 ≤ fuel' → solveF fuel b = solveF fuel' b := by
  intro n
  induction n with
  | zero =>
    intro fuel fuel' b hcnt hf hf'
    match fuel, fuel' with
    | f + 1, f' + 1 =>
      rcases he : eliminate b with msg | ⟨b1, flag⟩
      · rw [solveF_succ_error f he, solveF_succ_error f' he]
      · cases flag with
        | true => rw [solveF_succ_solved f he, solveF_succ_solved f' he]
        | false =>
          rw [solveF_succ_stall f he, solveF_succ_stall f' he]
          refine dfsWith_congr fun i hints hsel hint _ => ?_
          have hcell := (selectCell_some_spec hsel).1
          have hpos := countNS_pos_of_notSolved hcell
          have hle := (eliminate_ok_spec he).2.1
          omega
  | succ n ih =>
    intro fuel fuel' b hcnt hf hf'
    match fuel, fuel' with
    | f + 1, f' + 1 =>
      rcases he : eliminate b with msg | ⟨b1, flag⟩
      · rw [solveF_succ_error f he, solveF_succ_error f' he]
      · cases flag with
        | true => rw [solveF_succ_solved f he, solveF_succ_solved f' he]
        | false =>
          rw [solveF_succ_stall f he, solveF_succ_stall f' he]
          refine dfsWith_congr fun i hints hsel hint _ => ?_
          have hcell := (selectCell_some_spec hsel).1
          have hpos := countNS_pos_of_notSolved hcell
          have hle := (eliminate_ok_spec he).2.1
          have hset := countNS_set_solved (v := hint) hcell
          exact ih f f' _ (by omega) (by omega) (by omega)

theorem dfsWith_fuel {b1 : Board} {n f f' : Nat} (hcnt : countNS b1 ≤ n + 1)
    (hf : 2 * n + 2 ≤ f) (hf' : 2 * n + 2 ≤ f') :
    dfsWith (solveF f) b1 = dfsWith (solveF f') b1 := by
  refine dfsWith_congr fun i hints hsel hint _ => ?_
  have hcell := (selectCell_some_spec hsel).1
  have hpos := countNS_pos_of_notSolved hcell
  have hset := countNS_set_solved (v := hint) hcell
  exact solveF_fuel n f f' _ (by omega) hf hf'

theorem solve_eq_solveF {b : Board} {fuel : Nat} (h81 : b.length = 81)
    (hfuel : 164 ≤ fuel) : solve b = solveF fuel b := by
  rw [solve_def]
  have := countNS_le_length b
  exact solveF_fuel 81 164 fuel b (by omega) (by omega) (by omega)

theorem eraseHint_of_solved {b : Board} {j : Nat} (hs : (getCell b j).isSolved = true)
    (a : Nat) : eraseHint b j a = b := by
  unfold eraseHint
  rcases hc : getCell b j with h | v
  · rw [hc] at hs
    simp [Cell.isSolved] at hs
  · rfl

theorem eraseHints_of_solved {b : Board} {idxs : List Nat}
    (hs : ∀ j ∈ idxs, (getCell b j).isSolved = true) (a : Nat) :
    eraseHints b idxs a = b := by
  induction idxs with
  | nil => rfl
  | cons j rest ih =>
    show eraseHints (eraseHint b j a) rest a = b
    rw [eraseHint_of_solved (hs j (List.mem_cons_self ..)) a]
    exact ih fun x hx => hs x (List.mem_cons_of_mem _ hx)

theorem pass1Step_of_allSolved {b : Board} (hall : allSolved b = true) {i : Nat}
    (hi : i < 81) : pass1Step b i = b := by
  have hsol : ∀ j, j < 81 → (getCell b j).isSolved = true := fun j hj =>
    allSolved_iff.1 hall j hj
  rcases hc : getCell b i with h | v
  · exfalso
    have := hsol i hi
    rw [hc] at this
    simp [Cell.isSolved] at this
  · unfold pass1Step
    rw [hc]
    show eraseHints (eraseHints (eraseHints b (rowIdxs i) v) (colIdxs i) v) (blockIdxs i) v = b
    rw [eraseHints_of_solved (fun j hj => hsol j ((mem_rowIdxs hi).1 hj).2) v,
      eraseHints_of_solved (fun j hj => hsol j ((mem_colIdxs hi).1 hj).2) v,
      eraseHints_of_solved (fun j hj => hsol j ((mem_blockIdxs hi).1 hj).2.2) v]

theorem eliminatePass1_of_allSolved {b : Board} (hall : allSolved b = true) :
    eliminatePass1 b = b := by
  rw [eliminatePass1_eq]
  have : ∀ l : List Nat, (∀ i ∈ l, i < 81) → List.foldl pass1Step b l = b := by
    intro l
    induction l with
    | nil => intro _; rfl
    | cons i rest ih =>
      intro hmem
      rw [List.foldl_cons, pass1Step_of_allSolved hall (hmem i (List.mem_cons_self ..))]
      exact ih fun x hx => hmem x (List.mem_cons_of_mem _ hx)
  exact this _ fun i hi => List.mem_range.1 hi

theorem eliminate_of_allSolved {b : Board} (hall : allSolved b = true) :
    eliminate b = .ok (b, true) := by
  have hp1 : eliminatePass1 b = b := eliminatePass1_of_allSolved hall
  have hstep : eliminateStep b = .ok (.inl (b, true)) := by
    have := eliminateStep_all (b := b) (by rw [hp1]; exact hall)
    rwa [hp1] at this
  rw [eliminate_def, show (82 : Nat) = 81 + 1 from rfl]
  exact eliminateF_succ_done 81 hstep

theorem solve_of_allSolved {b : Board} (hall : allSolved b = true) :
    solve b = .ok b := by
  rw [solve_def, show (164 : Nat) = 163 + 1 from rfl]
  exact solveF_succ_solved 163 (eliminate_of_allSolved hall)

theorem solveF_ok_shrinks :
    ∀ (fuel : Nat) (b S : Board), solveF fuel b = .ok S → Shrinks b S := by
  intro fuel
  induction fuel with
  | zero =>
    intro b S h
    rw [solveF_zero] at h
    cases h
  | succ fuel ih =>
    intro b S h
    rcases he : eliminate b with msg | ⟨b1, flag⟩
    · rw [solveF_succ_error fuel he] at h
      cases h
    · have hshr1 : Shrinks b b1 := (eliminate_ok_spec he).1
      cases flag with
      | true =>
        rw [solveF_succ_solved fuel he] at h
        cases h
        exact hshr1
      | false =>
        rw [solveF_succ_stall fuel he] at h
        rcases hsel : selectCell b1 with _ | ⟨i, hints⟩
        · rw [dfsWith_none _ hsel] at h
          cases h
          exact hshr1
        · rw [dfsWith_some _ hsel] at h
          have hcellW : ∃ hs, getCell b1 i = .notSolved hs :=
            ⟨hints, (selectCell_some_spec hsel).1⟩
          clear hsel
          induction hints with
          | nil =>
            rw [tryHints_nil] at h
            cases h
          | cons hint rest ihh =>
            rcases hres : solveF fuel (b1.set i (.solved hint)) with msg | b2
            · rw [tryHints_cons_error hres] at h
              exact ihh h
            · rw [tryHints_cons_ok hres] at h
              cases h
              obtain ⟨hs0, hc0⟩ := hcellW
              exact (hshr1.trans (set_solved_shrinks hc0)).trans (ih _ _ hres)

theorem solveF_ok_allSolved :
    ∀ (fuel : Nat) (b S : Board), solveF fuel b = .ok S → allSolved S = true := by
  intro fuel
  induction fuel with
  | zero =>
    intro b S h
    rw [solveF_zero] at h
    cases h
  | succ fuel ih =>
    intro b S h
    rcases he : eliminate b with msg | ⟨b1, flag⟩
    · rw [solveF_succ_error fuel he] at h
      cases h
    · cases flag with
      | true =>
        rw [solveF_succ_solved fuel he] at h
        cases h
        exact (eliminate_ok_spec he).2.2.1 rfl
      | false =>
        rw [solveF_succ_stall fuel he] at h
        rcases hsel : selectCell b1 with _ | ⟨i, hints⟩
        · rw [dfsWith_none _ hsel] at h
          cases h
          exact allSolved_of_forall_mem (selectCell_none_iff.1 hsel)
        · rw [dfsWith_some _ hsel] at h
          clear hsel
          induction hints with
          | nil =>
            rw [tryHints_nil] at h
            cases h
          | cons hint rest ihh =>
            rcases hres : solveF fuel (b1.set i (.solved hint)) with msg | b2
            · rw [tryHints_cons_error hres] at h
              exact ihh h
            · rw [tryHints_cons_ok hres] at h
              cases h
              exact ih _ _ hres

theorem dfsWith_solveF_ok_shrinks {fuel : Nat} {b S : Board}
    (h : dfsWith (solveF fuel) b = .ok S) : Shrinks b S := by
  rcases hsel : selectCell b with _ | ⟨i, hints⟩
  · rw [dfsWith_none _ hsel] at h
    cases h
    exact Shrinks.refl _
  · rw [dfsWith_some _ hsel] at h
    have hcellW : ∃ hs, getCell b i = .notSolved hs := ⟨hints, (selectCell_some_spec hsel).1⟩
    clear hsel
    induction hints with
    | nil =>
      rw [tryHints_nil] at h
      cases h
    | cons hint rest ihh =>
      rcases hres : solveF fuel (b.set i (.solved hint)) with msg | b2
      · rw [tryHints_cons_error hres] at h
        exact ihh h
      · rw [tryHints_cons_ok hres] at h
        cases h
        obtain ⟨hs0, hc0⟩ := hcellW
        exact (set_solved_shrinks hc0).trans (solveF_ok_shrinks fuel _ _ hres)

/-! ## Claim theorems (symbolic parts) -/

/-- **C6**: `solve` first runs `eliminate`; a fully solved result is
returned directly, a stall hands the partially-propagated board to
`depth_first_search` and returns that call's result unchanged, and an
`eliminate` error is returned unchanged (no search attempted). -/
theorem solve_orchestration (b : Board) (h81 : b.length = 81) :
    (∀ b', eliminate b = .ok (b', true) → solve b = .ok b') ∧
    (∀ b', eliminate b = .ok (b', false) → solve b = depth_first_search b') ∧
    (∀ msg, eliminate b = .error msg → solve b = .error msg) := by
  refine ⟨fun b' he => ?_, fun b' he => ?_, fun msg he => ?_⟩
  · rw [solve_def, show (164 : Nat) = 163 + 1 from rfl]
    exact solveF_succ_solved 163 he
  · rw [solve_def, show (164 : Nat) = 163 + 1 from rfl, solveF_succ_stall 163 he,
      depth_first_search_def]
    have hlen : b'.length = b.length := (eliminate_ok_spec he).1.1
    have hcnt : countNS b' ≤ 81 := by
      have := countNS_le_length b'
      omega
    exact dfsWith_fuel (n := 80) (by omega) (by omega) (by omega)
  · rw [solve_def, show (164 : Nat) = 163 + 1 from rfl]
    exact solveF_succ_error 163 he

/-- **C9**: `Solved` cells are never modified: any `Solved(v)` cell of the
input keeps its value in any successful output of `solve`, of `eliminate`
(on both the solved and the stalled path) and of `depth_first_search`. -/
theorem solved_cells_never_modified (b : Board) :
    (∀ S, solve b = .ok S → ∀ i v, getCell b i = .solved v → getCell S i = .solved v) ∧
    (∀ b' flag, eliminate b = .ok (b', flag) →
      ∀ i v, getCell b i = .solved v → getCell b' i = .solved v) ∧
    (∀ S, depth_first_search b = .ok S →
      ∀ i v, getCell b i = .solved v → getCell S i = .solved v) := by
  refine ⟨fun S hok i v hv => ?_, fun b' flag hok i v hv => ?_, fun S hok i v hv => ?_⟩
  · rw [solve_def] at hok
    exact ((solveF_ok_shrinks 164 b S hok).2 i).1 v hv
  · exact (((eliminate_ok_spec hok).1).2 i).1 v hv
  · rw [depth_first_search_def] at hok
    exact ((dfsWith_solveF_ok_shrinks hok).2 i).1 v hv

/-- **C4**: `solve` is idempotent on success: a successful output is fully
solved, and running `solve` on it returns it unchanged. -/
theorem solve_idempotent {b S : Board} (h : solve b = .ok S) : solve S = .ok S := by
  rw [solve_def] at h
  exact solve_of_allSolved (solveF_ok_allSolved 164 b S h)

/-- **C10**: a board whose 81 cells are all `Solved` is returned unchanged
by `solve`, whether or not it satisfies the row/column/block uniqueness
constraints — no duplicate check is applied between two `Solved` cells. -/
theorem solve_allSolved_unchanged {b : Board} (hall : allSolved b = true) :
    solve b = .ok b :=
  solve_of_allSolved hall

/-- **C2 (amended)**: `solve` does not reject duplicated fixed values: when
the input has two identical `Solved` values on peer cells and `solve`
succeeds, both cells persist unchanged in the output (no duplicate error is
raised for them, and they are not repaired). -/
theorem solve_duplicate_fixed_preserved {b S : Board} {i j v : Nat}
    (hij : i ≠ j) (hpeer : Peer i j)
    (hi : getCell b i = .solved v) (hj : getCell b j = .solved v)
    (hok : solve b = .ok S) :
    getCell S i = .solved v ∧ getCell S j = .solved v := by
  rw [solve_def] at hok
  have hshr := solveF_ok_shrinks 164 b S hok
  exact ⟨(hshr.2 i).1 v hi, (hshr.2 j).1 v hj⟩

/-! ## The propagation invariant (C7): candidates exclude solved peers -/

theorem shrinks_not_mem {b b' : Board} (hs : Shrinks b b') {i a : Nat} {h' : List Nat}
    (hb' : getCell b' i = .notSolved h')
    (hall : ∀ h0, getCell b i = .notSolved h0 → a ∉ h0) : a ∉ h' := by
  obtain ⟨h0, hb0, hsub⟩ := (hs.2 i).2 h' hb'
  exact fun hm => hall h0 hb0 (hsub.subset hm)

theorem shrinks_nodup {b b' : Board} (hs : Shrinks b b') {i : Nat}
    (hnd : ∀ h0, getCell b i = .notSolved h0 → h0.Nodup) :
    ∀ h1, getCell b' i = .notSolved h1 → h1.Nodup := by
  intro h1 hb1
  obtain ⟨h0, hb0, hsub⟩ := (hs.2 i).2 h1 hb1
  exact (hnd h0 hb0).sublist hsub

theorem getCell_eraseHint_self {b : Board} {j a : Nat} {h : List Nat}
    (hc : getCell b j = .notSolved h) :
    getCell (eraseHint b j a) j = .notSolved (h.erase a) := by
  have he : eraseHint b j a = b.set j (.notSolved (h.erase a)) := by
    unfold eraseHint
    rw [hc]
  rw [he, getCell_set_self (lt_length_of_notSolved hc)]

theorem eraseHints_not_mem {b : Board} {idxs : List Nat} {a i : Nat}
    (hmem : i ∈ idxs)
    (hnd : ∀ h0, getCell b i = .notSolved h0 → h0.Nodup) :
    ∀ h', getCell (eraseHints b idxs a) i = .notSolved h' → a ∉ h' := by
  obtain ⟨l1, l2, rfl⟩ := List.append_of_mem hmem
  intro h' hres
  have hsplit : eraseHints b (l1 ++ i :: l2) a =
      eraseHints (eraseHint (eraseHints b l1 a) i a) l2 a := by
    unfold eraseHints
    rw [List.foldl_append, List.foldl_cons]
  rw [hsplit] at hres
  have hshr1 : Shrinks b (eraseHints b l1 a) := eraseHints_shrinks ..
  -- the cell is still undetermined after the prefix, with `Nodup` hints
  have hmid : ∃ hm, getCell (eraseHints b l1 a) i = .notSolved hm := by
    obtain ⟨hm2, hb2, _⟩ := ((eraseHint_shrinks (eraseHints b l1 a) i a).2 i).2 _
      ((((eraseHints_shrinks (eraseHint (eraseHints b l1 a) i a) l2 a).2 i).2 h' hres).choose_spec.1)
    exact ⟨hm2, hb2⟩
  obtain ⟨hm, hbm⟩ := hmid
  have hndm : hm.Nodup := shrinks_nodup hshr1 hnd hm hbm
  have hmid2 : getCell (eraseHint (eraseHints b l1 a) i a) i = .notSolved (hm.erase a) :=
    getCell_eraseHint_self hbm
  refine shrinks_not_mem (eraseHints_shrinks ..) hres fun h0 hb0 => ?_
  rw [hmid2] at hb0
  cases hb0
  intro hmem2
  exact ((List.Nodup.mem_erase_iff hndm).1 hmem2).1 rfl

theorem pass1Step_not_mem {b : Board} {j v i : Nat}
    (hj : getCell b j = .solved v)
    (hpeer : i ∈ rowIdxs j ∨ i ∈ colIdxs j ∨ i ∈ blockIdxs j)
    (hnd : ∀ h0, getCell b i = .notSolved h0 → h0.Nodup) :
    ∀ h', getCell (pass1Step b j) i = .notSolved h' → v ∉ h' := by
  have hstep : pass1Step b j =
      eraseHints (eraseHints (eraseHints b (rowIdxs j) v) (colIdxs j) v) (blockIdxs j) v := by
    unfold pass1Step
    rw [hj]
  rw [hstep]
  have hnd1 : ∀ h0, getCell (eraseHints b (rowIdxs j) v) i = .notSolved h0 → h0.Nodup :=
    shrinks_nodup (eraseHints_shrinks ..) hnd
  have hnd2 : ∀ h0,
      getCell (eraseHints (eraseHints b (rowIdxs j) v) (colIdxs j) v) i = .notSolved h0 →
        h0.Nodup :=
    shrinks_nodup (eraseHints_shrinks ..) hnd1
  rcases hpeer with hrow | hcol | hblk
  · intro h' hres
    refine shrinks_not_mem (eraseHints_shrinks ..) hres fun h1 hb1 => ?_
    refine shrinks_not_mem (eraseHints_shrinks ..) hb1 fun h0 hb0 => ?_
    exact eraseHints_not_mem hrow hnd h0 hb0
  · intro h' hres
    refine shrinks_not_mem (eraseHints_shrinks ..) hres fun h1 hb1 => ?_
    exact eraseHints_not_mem hcol hnd1 h1 hb1
  · exact eraseHints_not_mem hblk hnd2

theorem foldl_pass1_not_mem :
    ∀ (l : List Nat) (b : Board) {j v i : Nat}, j ∈ l →
      getCell b j = .solved v →
      (i ∈ rowIdxs j ∨ i ∈ colIdxs j ∨ i ∈ blockIdxs j) →
      (∀ k, ∀ h0, getCell b k = .notSolved h0 → h0.Nodup) →
      ∀ h', getCell (List.foldl pass1Step b l) i = .notSolved h' → v ∉ h' := by
  intro l
  induction l with
  | nil => intro b j v i hmem; cases hmem
  | cons k rest ih =>
    intro b j v i hmem hj hpeer hnd h' hres
    rw [List.foldl_cons] at hres
    rcases eq_or_ne k j with rfl | hne
    · refine shrinks_not_mem (foldl_shrinks pass1Step_shrinks rest _) hres fun h1 hb1 => ?_
      exact pass1Step_not_mem hj hpeer (hnd i) h1 hb1
    · rcases List.mem_cons.1 hmem with rfl | hmem2
      · exact absurd rfl hne
      · have hj1 : getCell (pass1Step b k) j = .solved v :=
          ((pass1Step_shrinks b k).2 j).1 v hj
        have hnd1 : ∀ k2, ∀ h0, getCell (pass1Step b k) k2 = .notSolved h0 → h0.Nodup :=
          fun k2 => shrinks_nodup (pass1Step_shrinks b k) (hnd k2)
        exact ih (pass1Step b k) hmem2 hj1 hpeer hnd1 h' hres

theorem eliminatePass1_excluded {b : Board} (h81 : b.length = 81)
    (hnd : ∀ k, ∀ h0, getCell b k = .notSolved h0 → h0.Nodup) :
    Excluded (eliminatePass1 b) := by
  intro i hi j hj hns hne hpeer hsol
  rcases hcell : getCell (eliminatePass1 b) i with h' | v0
  · rcases hcj : getCell (eliminatePass1 b) j with hj' | v
    · rw [hcj] at hsol
      simp [Cell.isSolved] at hsol
    · -- the solved peer already carried `v` before the scan
      have hbj : getCell b j = .solved v := by
        have hiso := isSolved_eliminatePass1 b j
        rw [hcj] at hiso
        rcases hbj : getCell b j with hb' | u
        · rw [hbj] at hiso
          simp [Cell.isSolved] at hiso
        · have := ((eliminatePass1_shrinks b).2 j).1 u hbj
          rw [hcj] at this
          cases this
          rfl
      have hwrites : i ∈ rowIdxs j ∨ i ∈ colIdxs j ∨ i ∈ blockIdxs j :=
        peer_symm hi hj hpeer
      have hnotmem : v ∉ h' := by
        rw [eliminatePass1_eq] at hcell
        exact foldl_pass1_not_mem (List.range 81) b (List.mem_range.2 hj) hbj hwrites hnd
          h' hcell
      simpa [hintsOf, cellVal] using hnotmem
  · rw [hcell] at hns
    simp [Cell.isSolved] at hns

theorem boardWF_nodup {b : Board} (hwf : BoardWF b) :
    ∀ k, ∀ h0, getCell b k = .notSolved h0 → h0.Nodup := by
  intro k h0 hk
  have hklt : k < 81 := by
    have := lt_length_of_notSolved hk
    have := hwf.1
    omega
  have hsorted := (hwf.2 k hklt).1
  rw [hk] at hsorted
  exact hsorted.nodup

/-- **C7**: whenever `eliminate` returns `Ok` (fully solved or stalled), no
`Undetermined` cell of the returned board keeps a candidate equal to the
value of a `Solved` cell in its row, column or block. -/
theorem eliminate_excluded {b b' : Board} {flag : Bool} (hwf : BoardWF b)
    (hok : eliminate b = .ok (b', flag)) : Excluded b' := by
  obtain ⟨hshr, hcnt, htrue, hfalse⟩ := eliminate_ok_spec hok
  cases flag with
  | true =>
    intro i hi j hj hns hne hpeer hsol
    have hall := allSolved_iff.1 (htrue rfl) i hi
    rw [hns] at hall
    cases hall
  | false =>
    obtain ⟨_, b0, rfl, hshr0⟩ := hfalse rfl
    have h81 : b0.length = 81 := by
      have := hshr0.1
      have := hwf.1
      omega
    exact eliminatePass1_excluded h81 fun k =>
      shrinks_nodup hshr0 (boardWF_nodup hwf k)

/-- **C5**: on a board with at least one `Undetermined` cell,
`depth_first_search` branches on the `Undetermined` cell with the smallest
candidate set, ties broken by the lowest index, and tries that cell's
candidates in ascending numeric order (the candidate list is strictly
sorted, and the trial loop `tryHints` walks it front to back). -/
theorem dfs_selects_mrv_ascending {b : Board} {i0 : Nat} {h0 : List Nat}
    (hwf : BoardWF b) (hund : getCell b i0 = .notSolved h0) :
    ∃ i h, selectCell b = some (i, h) ∧
      getCell b i = .notSolved h ∧
      (∀ j h2, getCell b j = .notSolved h2 → h.length ≤ h2.length) ∧
      (∀ j h2, j < i → getCell b j = .notSolved h2 → h.length < h2.length) ∧
      List.Sorted (· < ·) h ∧
      depth_first_search b = tryHints (solveF 164) b i h := by
  rcases hsel : selectCell b with _ | ⟨i, h⟩
  · exfalso
    have hall := selectCell_none_iff.1 hsel (getCell b i0)
      (mem_of_getCell (lt_length_of_notSolved hund))
    rw [hund] at hall
    simp [Cell.isSolved] at hall
  · obtain ⟨hcell, hmin⟩ := selectCell_some_spec hsel
    have hilt : i < 81 := by
      have := lt_length_of_notSolved hcell
      have := hwf.1
      omega
    have hsorted : List.Sorted (· < ·) h := by
      have := (hwf.2 i hilt).1
      rw [hcell] at this
      exact this
    refine ⟨i, h, rfl, hcell, fun j h2 hj => (hmin j h2 hj).1,
      fun j h2 hlt hj => (hmin j h2 hj).2 hlt, hsorted, ?_⟩
    rw [depth_first_search_def]
    exact dfsWith_some _ hsel

/-! ## The input boundary (C8) -/

theorem extractDigits_eq (bytes : List Nat) :
    extractDigits bytes =
      (bytes.filter fun v => decide (0x30 ≤ v ∧ v ≤ 0x39)).map fun v => v - 0x30 := by
  unfold extractDigits
  induction bytes with
  | nil => rfl
  | cons v rest ih =>
    rw [List.filterMap_cons, List.filter_cons]
    by_cases hv : 0x30 ≤ v ∧ v ≤ 0x39
    · rw [if_pos hv, if_pos (by simpa using hv), List.map_cons, ih]
    · rw [if_neg hv, if_neg (by simpa using hv), ih]

theorem extractDigits_le_nine (bytes : List Nat) :
    ∀ d ∈ extractDigits bytes, d ≤ 9 := by
  intro d hd
  rw [extractDigits_eq] at hd
  obtain ⟨v, hv, rfl⟩ := List.mem_map.1 hd
  have := List.mem_filter.1 hv
  have hle : v ≤ 0x39 := by
    have := this.2
    simp at this
    omega
  omega

theorem mapM_cellFrom {ds : List Nat} (hds : ∀ d ∈ ds, d ≤ 9) :
    ds.mapM cellFrom =
      some (ds.map fun d =>
        if d = 0 then Cell.notSolved (List.range' 1 9) else Cell.solved d) := by
  induction ds with
  | nil => rfl
  | cons d rest ih =>
    rw [List.mapM_cons]
    have hcd : cellFrom d =
        some (if d = 0 then Cell.notSolved (List.range' 1 9) else Cell.solved d) := by
      unfold cellFrom
      by_cases h0 : d = 0
      · rw [if_pos h0, if_pos h0]
      · rw [if_neg h0, if_neg h0, if_pos (hds d (List.mem_cons_self ..))]
    rw [hcd, ih fun x hx => hds x (List.mem_cons_of_mem _ hx)]
    rfl

/-- **C8**: `open` keeps exactly the ASCII digit bytes (other bytes are
skipped, not rejected), maps `'0'` to an `Undetermined` cell with all nine
candidates and `'1'..'9'` to `Solved` cells, never panics, and returns `Ok`
with the 81-cell board iff exactly 81 digit bytes remain — any other count
is the invalid-data error, produced without consulting the solver. -/
theorem open_boundary_spec (bytes : List Nat) :
    extractDigits bytes =
      ((bytes.filter fun v => decide (0x30 ≤ v ∧ v ≤ 0x39)).map fun v => v - 0x30) ∧
    openBytes bytes =
      some (if (extractDigits bytes).length = 81
        then .ok ((extractDigits bytes).map fun d =>
          if d = 0 then Cell.notSolved (List.range' 1 9) else Cell.solved d)
        else .error ()) ∧
    ((extractDigits bytes).length = 81 →
      openBytes bytes = some (.ok ((extractDigits bytes).map fun d =>
        if d = 0 then Cell.notSolved (List.range' 1 9) else Cell.solved d))) ∧
    ((extractDigits bytes).length ≠ 81 → openBytes bytes = some (.error ())) := by
  have hmain : openBytes bytes =
      some (if (extractDigits bytes).length = 81
        then .ok ((extractDigits bytes).map fun d =>
          if d = 0 then Cell.notSolved (List.range' 1 9) else Cell.solved d)
        else .error ()) := by
    unfold openBytes
    rw [mapM_cellFrom (extractDigits_le_nine bytes)]
    simp only [Option.map_some', List.length_map]
  refine ⟨extractDigits_eq bytes, hmain, fun h81 => ?_, fun hne => ?_⟩
  · rw [hmain, if_pos h81]
  · rw [hmain, if_neg hne]

/-! ## Invariant preservation (towards C1): well-formedness and no conflicts -/

theorem solved_of_isSolved {c : Cell} (h : c.isSolved = true) : c = .solved (cellVal c) := by
  rcases c with h0 | v
  · simp [Cell.isSolved] at h
  · rfl

theorem shape_solved_iff {b b' : Board} (hs : Shrinks b b')
    (hiso : ∀ i, (getCell b' i).isSolved = (getCell b i).isSolved) :
    ∀ i v, getCell b' i = .solved v ↔ getCell b i = .solved v := by
  intro i v
  constructor
  · intro hb'
    rcases hbi : getCell b i with h0 | u
    · have := hiso i
      rw [hb', hbi] at this
      simp [Cell.isSolved] at this
    · have := (hs.2 i).1 u hbi
      rw [hb'] at this
      cases this
      rfl
  · intro hb
    exact (hs.2 i).1 v hb

theorem boardWF_of_shape {b b' : Board} (hs : Shrinks b b')
    (hiso : ∀ i, (getCell b' i).isSolved = (getCell b i).isSolved)
    (hwf : BoardWF b) : BoardWF b' := by
  refine ⟨by rw [hs.1, hwf.1], fun i hi => ?_⟩
  rcases hc : getCell b' i with h' | v
  · obtain ⟨h0, hb0, hsub⟩ := (hs.2 i).2 h' hc
    have hold := hwf.2 i hi
    rw [hb0] at hold
    exact ⟨hold.1.sublist hsub, fun v hv => hold.2 v (hsub.subset hv)⟩
  · have hb : getCell b i = .solved v := (shape_solved_iff hs hiso i v).1 hc
    have hold := hwf.2 i hi
    rw [hb] at hold
    exact hold

theorem noConflicts_of_shape {b b' : Board} (hs : Shrinks b b')
    (hiso : ∀ i, (getCell b' i).isSolved = (getCell b i).isSolved)
    (hnc : NoConflicts b) : NoConflicts b' := by
  intro i hi j hj hne hpeer hsol heq
  rcases hci : getCell b' i with h' | u
  · rw [hci] at hsol
    simp [Cell.isSolved] at hsol
  · have hbi := (shape_solved_iff hs hiso i u).1 hci
    rcases hcj : getCell b' j with hj' | w
    · rw [hci, hcj] at heq
      cases heq
    · have hbj := (shape_solved_iff hs hiso j w).1 hcj
      rw [hci, hcj] at heq
      cases heq
      exact hnc i hi j hj hne hpeer (by rw [hbi]; rfl) (by rw [hbi, hbj])

theorem eliminatePass1_boardWF {b : Board} (hwf : BoardWF b) : BoardWF (eliminatePass1 b) :=
  boardWF_of_shape (eliminatePass1_shrinks b) (isSolved_eliminatePass1 b) hwf

theorem eliminatePass1_noConflicts {b : Board} (hnc : NoConflicts b) :
    NoConflicts (eliminatePass1 b) :=
  noConflicts_of_shape (eliminatePass1_shrinks b) (isSolved_eliminatePass1 b) hnc

theorem findDup_eq_some {b : Board} {idxs : List Nat} {hint j : Nat}
    (h : findDup b idxs hint = some j) : j ∈ idxs ∧ getCell b j = .solved hint := by
  rw [findDup] at h
  have hmem := List.mem_of_find?_eq_some h
  have hpred := List.find?_some h
  refine ⟨hmem, ?_⟩
  rcases hc : getCell b j with h0 | n
  · rw [hc] at hpred
    cases hpred
  · rw [hc] at hpred
    have : n = hint := by simpa using hpred
    rw [this]

/-- A promotion (`pass2Step` setting `board[i] = Solved hint` after its
duplicate checks) preserves well-formedness and conflict-freedom. -/
theorem promote_inv {b : Board} {i : Nat} {h : List Nat}
    (hc : getCell b i = .notSolved h) (hlen : h.length = 1)
    (hrow : findDup b (rowIdxs i) (h.headD 0) = none)
    (hcol : findDup b (colIdxs i) (h.headD 0) = none)
    (hblk : findDup b (blockIdxs i) (h.headD 0) = none)
    (hwf : BoardWF b) (hnc : NoConflicts b) :
    BoardWF (b.set i (.solved (h.headD 0))) ∧
      NoConflicts (b.set i (.solved (h.headD 0))) := by
  have hiw : i < b.length := lt_length_of_notSolved hc
  have hi81 : i < 81 := by
    have := hwf.1
    omega
  have hmem : h.headD 0 ∈ h := by
    rw [eq_singleton_of_length_one hlen]
    exact List.mem_cons_self ..
  have hrange : 1 ≤ h.headD 0 ∧ h.headD 0 ≤ 9 := by
    have := (hwf.2 i hi81).2 (h.headD 0)
    rw [hc] at this
    exact this hmem
  have hnodup : ∀ j, j ≠ i → Peer i j → ∀ v, getCell b j = .solved v → v ≠ h.headD 0 := by
    intro j hne hpeer v hj
    rcases hpeer with hp | hp | hp
    · exact findDup_eq_none.1 hrow j hp v hj
    · exact findDup_eq_none.1 hcol j hp v hj
    · exact findDup_eq_none.1 hblk j hp v hj
  constructor
  · refine ⟨by rw [List.length_set, hwf.1], fun k hk => ?_⟩
    rcases eq_or_ne i k with rfl | hne
    · rw [getCell_set_self hiw]
      refine ⟨List.sorted_singleton _, fun v hv => ?_⟩
      have : v = h.headD 0 := by simpa [hintsOf] using hv
      rw [this]
      exact hrange
    · rw [getCell_set_ne hne]
      exact hwf.2 k hk
  · intro k hk l hl hne hpeer hsol heq
    by_cases hki : i = k
    · subst hki
      have hli : i ≠ l := hne
      rw [getCell_set_self hiw, getCell_set_ne hli] at heq
      rcases hcl : getCell b l with h0 | w
      · rw [hcl] at heq
        cases heq
      · rw [hcl] at heq
        have hw : w = h.headD 0 := by
          cases heq
          rfl
        exact hnodup l (fun hh => hli hh.symm) hpeer w hcl hw
    · by_cases hli : i = l
      · subst hli
        rw [getCell_set_ne hki] at hsol heq
        rw [getCell_set_self hiw] at heq
        rcases hck : getCell b k with h0 | w
        · rw [hck] at hsol
          simp [Cell.isSolved] at hsol
        · rw [hck] at heq
          have hw : w = h.headD 0 := by
            cases heq
            rfl
          exact hnodup k (fun hh => hki hh.symm) (peer_symm hk hl hpeer) w hck hw
      · rw [getCell_set_ne hki] at hsol heq
        rw [getCell_set_ne hli] at heq
        exact hnc k hk l hl hne hpeer hsol heq

theorem allSolved_of_countNS_zero {b : Board} (h : countNS b = 0) : allSolved b = true := by
  refine allSolved_of_forall_mem fun c hc => ?_
  rw [countNS, List.countP_eq_zero] at h
  have hcp := h c hc
  cases hs : c.isSolved
  · exact absurd (show (fun c : Cell => !c.isSolved) c = true by simp [hs]) hcp
  · rfl

theorem pass2_fold_inv :
    ∀ (l : List Nat) (s : Board × Bool) (b2 : Board) (ch2 : Bool),
      List.foldlM pass2Step s l = .ok (b2, ch2) → BoardWF s.1 → NoConflicts s.1 →
      BoardWF b2 ∧ NoConflicts b2 := by
  intro l
  induction l with
  | nil =>
    intro s b2 ch2 hfold hwf hnc
    rw [List.foldlM_nil] at hfold
    have hs : s = (b2, ch2) := Except.ok.inj hfold
    rw [hs] at hwf hnc
    exact ⟨hwf, hnc⟩
  | cons i rest ih =>
    intro s b2 ch2 hfold hwf hnc
    rw [List.foldlM_cons] at hfold
    rcases pass2Step_cases s i with hstep | ⟨h, hc, hlen, hrow, hcol, hblk, hstep⟩ |
      ⟨msg, hstep⟩
    · rw [hstep, exceptBind_ok] at hfold
      exact ih s b2 ch2 hfold hwf hnc
    · rw [hstep, exceptBind_ok] at hfold
      obtain ⟨hwf2, hnc2⟩ := promote_inv hc hlen hrow hcol hblk hwf hnc
      exact ih (s.1.set i (.solved (h.headD 0)), true) b2 ch2 hfold hwf2 hnc2
    · rw [hstep, exceptBind_error] at hfold
      cases hfold

theorem eliminateF_ok_inv :
    ∀ (fuel : Nat) (b b' : Board) (flag : Bool),
      eliminateF fuel b = .ok (b', flag) → BoardWF b → NoConflicts b →
      BoardWF b' ∧ NoConflicts b' := by
  intro fuel
  induction fuel with
  | zero =>
    intro b b' flag h _ _
    rw [eliminateF_zero] at h
    cases h
  | succ fuel ih =>
    intro b b' flag h hwf hnc
    have hwf1 : BoardWF (eliminatePass1 b) := eliminatePass1_boardWF hwf
    have hnc1 : NoConflicts (eliminatePass1 b) := eliminatePass1_noConflicts hnc
    rcases eliminateStep_cases b with ⟨hall, hstep⟩ | ⟨hall, hp, hstep⟩ |
      ⟨hall, b2, hp, hcnt, hstep⟩ | ⟨msg, hstep⟩
    · rw [eliminateF_succ_done fuel hstep] at h
      cases h
      exact ⟨hwf1, hnc1⟩
    · rw [eliminateF_succ_done fuel hstep] at h
      cases h
      exact ⟨hwf1, hnc1⟩
    · rw [eliminateF_succ_continue fuel hstep] at h
      rw [eliminatePass2_eq] at hp
      obtain ⟨hwf2, hnc2⟩ :=
        pass2_fold_inv (List.range 81) (eliminatePass1 b, false) b2 true hp hwf1 hnc1
      exact ih b2 b' flag h hwf2 hnc2
    · rw [eliminateF_succ_error fuel hstep] at h
      cases h

theorem eliminate_ok_inv {b b' : Board} {flag : Bool}
    (h : eliminate b = .ok (b', flag)) (hwf : BoardWF b) (hnc : NoConflicts b) :
    BoardWF b' ∧ NoConflicts b' := by
  rw [eliminate_def] at h
  exact eliminateF_ok_inv 82 b b' flag h hwf hnc

theorem eliminate_ok_excluded {b b' : Board} {flag : Bool} (hwf : BoardWF b)
    (hok : eliminate b = .ok (b', flag)) : Excluded b' := by
  obtain ⟨hshr, hcnt, htrue, hfalse⟩ := eliminate_ok_spec hok
  cases flag with
  | true =>
    intro i hi j hj hns hne hpeer hsol
    have hall := allSolved_iff.1 (htrue rfl) i hi
    rw [hns] at hall
    cases hall
  | false =>
    obtain ⟨_, b0, rfl, hshr0⟩ := hfalse rfl
    have h81 : b0.length = 81 := by
      have := hshr0.1
      have := hwf.1
      omega
    exact eliminatePass1_excluded h81 fun k =>
      shrinks_nodup hshr0 (boardWF_nodup hwf k)

theorem set_solved_boardWF {b : Board} {i : Nat} {h : List Nat} {v : Nat}
    (hc : getCell b i = .notSolved h) (hv : v ∈ h) (hwf : BoardWF b) :
    BoardWF (b.set i (.solved v)) := by
  have hiw : i < b.length := lt_length_of_notSolved hc
  have hi81 : i < 81 := by
    have := hwf.1
    omega
  refine ⟨by rw [List.length_set, hwf.1], fun k hk => ?_⟩
  by_cases hik : i = k
  · subst hik
    rw [getCell_set_self hiw]
    refine ⟨List.sorted_singleton _, fun u hu => ?_⟩
    have hu' : u = v := by simpa [hintsOf] using hu
    have := (hwf.2 i hi81).2 v
    rw [hc] at this
    rw [hu']
    exact this hv
  · rw [getCell_set_ne hik]
    exact hwf.2 k hk

theorem set_solved_noConflicts_of_excluded {b : Board} {i : Nat} {h : List Nat} {v : Nat}
    (hc : getCell b i = .notSolved h) (hv : v ∈ h) (h81 : b.length = 81)
    (hnc : NoConflicts b) (hexc : Excluded b) :
    NoConflicts (b.set i (.solved v)) := by
  have hiw : i < b.length := lt_length_of_notSolved hc
  have hi81 : i < 81 := by omega
  have hnodup : ∀ j, j ≠ i → Peer i j → ∀ w, getCell b j = .solved w → w ≠ v := by
    intro j hne hpeer w hj heq
    have hj81 : j < 81 := peer_lt hi81 hpeer
    have hres := hexc i hi81 j hj81 (by rw [hc]; rfl) hne hpeer (by rw [hj]; rfl)
    rw [hj, hc] at hres
    simp only [cellVal, hintsOf] at hres
    rw [heq] at hres
    exact hres hv
  intro k hk l hl hne hpeer hsol heq
  by_cases hki : i = k
  · subst hki
    have hli : i ≠ l := hne
    rw [getCell_set_self hiw, getCell_set_ne hli] at heq
    rcases hcl : getCell b l with h0 | w
    · rw [hcl] at heq
      cases heq
    · rw [hcl] at heq
      have hw : w = v := by
        cases heq
        rfl
      exact hnodup l (fun hh => hli hh.symm) hpeer w hcl hw
  · by_cases hli : i = l
    · subst hli
      rw [getCell_set_ne hki] at hsol heq
      rw [getCell_set_self hiw] at heq
      rcases hck : getCell b k with h0 | w
      · rw [hck] at hsol
        simp [Cell.isSolved] at hsol
      · rw [hck] at heq
        have hw : w = v := by
          cases heq
          rfl
        exact hnodup k (fun hh => hki hh.symm) (peer_symm hk hl hpeer) w hck hw
    · rw [getCell_set_ne hki] at hsol heq
      rw [getCell_set_ne hli] at heq
      exact hnc k hk l hl hne hpeer hsol heq

theorem solveF_ok_inv :
    ∀ (fuel : Nat) (b S : Board), solveF fuel b = .ok S → BoardWF b → NoConflicts b →
      BoardWF S ∧ NoConflicts S := by
  intro fuel
  induction fuel with
  | zero =>
    intro b S h _ _
    rw [solveF_zero] at h
    cases h
  | succ fuel ih =>
    intro b S h hwf hnc
    rcases he : eliminate b with msg | ⟨b1, flag⟩
    · rw [solveF_succ_error fuel he] at h
      cases h
    · have hinv1 := eliminate_ok_inv he hwf hnc
      cases flag with
      | true =>
        rw [solveF_succ_solved fuel he] at h
        cases h
        exact hinv1
      | false =>
        rw [solveF_succ_stall fuel he] at h
        have hexc : Excluded b1 := eliminate_ok_excluded hwf he
        rcases hsel : selectCell b1 with _ | ⟨i, hints⟩
        · rw [dfsWith_none _ hsel] at h
          cases h
          exact hinv1
        · rw [dfsWith_some _ hsel] at h
          have hcell := (selectCell_some_spec hsel).1
          clear hsel
          have aux : ∀ l : List Nat, (∀ x ∈ l, x ∈ hints) →
              tryHints (solveF fuel) b1 i l = .ok S → BoardWF S ∧ NoConflicts S := by
            intro l
            induction l with
            | nil =>
              intro _ hh
              rw [tryHints_nil] at hh
              cases hh
            | cons x rest ihl =>
              intro hsub hh
              rcases hres : solveF fuel (b1.set i (.solved x)) with msg | b2
              · rw [tryHints_cons_error hres] at hh
                exact ihl (fun y hy => hsub y (List.mem_cons_of_mem _ hy)) hh
              · rw [tryHints_cons_ok hres] at hh
                cases hh
                have hxmem : x ∈ hints := hsub x (List.mem_cons_self ..)
                exact ih _ _ hres (set_solved_boardWF hcell hxmem hinv1.1)
                  (set_solved_noConflicts_of_excluded hcell hxmem hinv1.1.1 hinv1.2 hexc)
          exact aux hints (fun x hx => hx) h

theorem solve_ok_inv {b S : Board} (h : solve b = .ok S) (hwf : BoardWF b)
    (hnc : NoConflicts b) : BoardWF S ∧ NoConflicts S := by
  rw [solve_def] at h
  exact solveF_ok_inv 164 b S h hwf hnc

/-! ## Completeness towards C1: a solution is never erased -/

theorem extends_val_eq {X b : Board} {i v : Nat} (hext : Extends X b) (hi : i < 81)
    (hc : getCell b i = .solved v) : cellVal (getCell X i) = v := by
  have := hext i hi
  rw [hc] at this
  simpa [hintsOf] using this

theorem valX_ne {X : Board} (hX : ValidComplete X) {k j : Nat} (hk : k < 81) (hj : j < 81)
    (hne : k ≠ j) (hpeer : Peer k j) :
    cellVal (getCell X k) ≠ cellVal (getCell X j) := by
  intro heq
  have hsk := allSolved_iff.1 hX.2.1 k hk
  have hsj := allSolved_iff.1 hX.2.1 j hj
  refine hX.2.2.1 k hk j hj hne hpeer hsk ?_
  rw [solved_of_isSolved hsk, solved_of_isSolved hsj, heq]

theorem noConflicts_of_solves {X b : Board} (hs : Solves X b) (h81 : b.length = 81) :
    NoConflicts b := by
  intro i hi j hj hne hpeer hsol heq
  rcases hci : getCell b i with h | vi
  · rw [hci] at hsol
    simp [Cell.isSolved] at hsol
  · rcases hcj : getCell b j with h | vj
    · rw [hci, hcj] at heq
      cases heq
    · have hvi := extends_val_eq hs.2 hi hci
      have hvj := extends_val_eq hs.2 hj hcj
      rw [hci, hcj] at heq
      cases heq
      exact valX_ne hs.1 hi hj hne hpeer (by rw [hvi, hvj])

theorem eraseHint_extends {X b : Board} {j a : Nat} (hext : Extends X b)
    (hcond : cellVal (getCell X j) ≠ a ∨ (getCell b j).isSolved = true) :
    Extends X (eraseHint b j a) := by
  unfold eraseHint
  rcases hc : getCell b j with h0 | v
  · intro i hi
    by_cases hij : j = i
    · subst hij
      rw [getCell_set_self (lt_length_of_notSolved hc)]
      have hmem := hext j hi
      rw [hc] at hmem
      simp only [hintsOf] at hmem ⊢
      have hne : cellVal (getCell X j) ≠ a := by
        rcases hcond with hl | hr
        · exact hl
        · rw [hc] at hr
          cases hr
      exact (List.mem_erase_of_ne hne).2 hmem
    · rw [getCell_set_ne hij]
      exact hext i hi
  · exact hext

theorem eraseHints_extends {X : Board} (a : Nat) :
    ∀ (idxs : List Nat) (b : Board), Extends X b →
      (∀ j ∈ idxs, cellVal (getCell X j) ≠ a ∨ (getCell b j).isSolved = true) →
      Extends X (eraseHints b idxs a) := by
  intro idxs
  induction idxs with
  | nil => intro b hext _; exact hext
  | cons j rest ih =>
    intro b hext hcond
    show Extends X (eraseHints (eraseHint b j a) rest a)
    refine ih (eraseHint b j a) (eraseHint_extends hext (hcond j (List.mem_cons_self ..)))
      fun k hk => ?_
    rw [isSolved_eraseHint]
    exact hcond k (List.mem_cons_of_mem _ hk)

theorem pass1Step_extends {X b : Board} {k : Nat} (hX : ValidComplete X) (hk : k < 81)
    (hext : Extends X b) : Extends X (pass1Step b k) := by
  unfold pass1Step
  rcases hc : getCell b k with h0 | v
  · exact hext
  · have hval : ∀ j, Peer k j → cellVal (getCell X j) ≠ v ∨ (getCell b j).isSolved = true := by
      intro j hpeer
      by_cases hjk : j = k
      · refine Or.inr ?_
        rw [hjk, hc]
        rfl
      · refine Or.inl ?_
        have hj : j < 81 := peer_lt hk hpeer
        have hXk : cellVal (getCell X k) = v := extends_val_eq hext hk hc
        have := valX_ne hX hk hj (fun he => hjk he.symm) hpeer
        rw [hXk] at this
        exact fun he => this he.symm
    refine eraseHints_extends v (blockIdxs k) _
      (eraseHints_extends v (colIdxs k) _
        (eraseHints_extends v (rowIdxs k) b hext
          fun j hj => hval j (Or.inl hj))
        fun j hj => ?_)
      fun j hj => ?_
    · rw [isSolved_eraseHints]
      exact hval j (Or.inr (Or.inl hj))
    · rw [isSolved_eraseHints, isSolved_eraseHints]
      exact hval j (Or.inr (Or.inr hj))

theorem eliminatePass1_extends {X b : Board} (hX : ValidComplete X)
    (hext : Extends X b) : Extends X (eliminatePass1 b) := by
  rw [eliminatePass1_eq]
  have haux : ∀ (l : List Nat) (b0 : Board), (∀ k ∈ l, k < 81) → Extends X b0 →
      Extends X (List.foldl pass1Step b0 l) := by
    intro l
    induction l with
    | nil => intro b0 _ hext0; exact hext0
    | cons k rest ih =>
      intro b0 hl hext0
      rw [List.foldl_cons]
      exact ih (pass1Step b0 k) (fun x hx => hl x (List.mem_cons_of_mem _ hx))
        (pass1Step_extends hX (hl k (List.mem_cons_self ..)) hext0)
  exact haux (List.range 81) b (fun k hk => List.mem_range.1 hk) hext

theorem extends_set {X b : Board} {i : Nat} (hiw : i < b.length) (hext : Extends X b) :
    Extends X (b.set i (.solved (cellVal (getCell X i)))) := by
  intro k hk
  by_cases hik : i = k
  · subst hik
    rw [getCell_set_self hiw]
    simp [hintsOf]
  · rw [getCell_set_ne hik]
    exact hext k hk

theorem pass2Step_complete {X : Board} (hX : ValidComplete X) {s : Board × Bool} {i : Nat}
    (hi : i < 81) (h81 : s.1.length = 81) (hext : Extends X s.1) :
    ∃ s', pass2Step s i = .ok s' ∧ s'.1.length = 81 ∧ Extends X s'.1 := by
  have hun : pass2Step s i = match getCell s.1 i with
    | .solved _ => .ok s
    | .notSolved hints =>
      if hints.isEmpty then .error s!"unsolvable cell at {i}"
      else if hints.length != 1 then .ok s
      else
        let hint := hints.headD 0
        match findDup s.1 (rowIdxs i) hint with
        | some j => .error s!"duplicate cell at {j}"
        | none =>
        match findDup s.1 (colIdxs i) hint with
        | some j => .error s!"duplicate cell at {j}"
        | none =>
        match findDup s.1 (blockIdxs i) hint with
        | some j => .error s!"duplicate cell at ({j % 9}, {j / 9})"
        | none => .ok (s.1.set i (.solved hint), true) := rfl
  rcases hc : getCell s.1 i with hints | v
  · rw [hc] at hun
    dsimp only at hun
    have hXi : cellVal (getCell X i) ∈ hints := by
      have := hext i hi
      rw [hc] at this
      simpa [hintsOf] using this
    have hEm : hints.isEmpty = false := by
      cases hints with
      | nil => exact absurd hXi (List.not_mem_nil _)
      | cons x t => rfl
    rw [if_neg (by simp [hEm])] at hun
    by_cases hlen : (hints.length != 1) = true
    · rw [if_pos hlen] at hun
      exact ⟨s, hun, h81, hext⟩
    · rw [if_neg hlen] at hun
      have hlen1 : hints.length = 1 := by simpa using hlen
      have hXv : cellVal (getCell X i) = hints.headD 0 := by
        rw [eq_singleton_of_length_one hlen1] at hXi
        simpa using hXi
      have hdup : ∀ idxs : List Nat, (∀ j ∈ idxs, Peer i j ∧ j < 81) →
          findDup s.1 idxs (hints.headD 0) = none := by
        intro idxs hidx
        rcases hfd : findDup s.1 idxs (hints.headD 0) with _ | j
        · rfl
        · exfalso
          obtain ⟨hjmem, hjc⟩ := findDup_eq_some hfd
          obtain ⟨hpeer, hj81⟩ := hidx j hjmem
          have hXj : cellVal (getCell X j) = hints.headD 0 := extends_val_eq hext hj81 hjc
          have hne : i ≠ j := by
            intro he
            rw [← he, hc] at hjc
            cases hjc
          exact valX_ne hX hi hj81 hne hpeer (by rw [hXv, hXj])
      rw [hdup (rowIdxs i) fun j hj => ⟨Or.inl hj, ((mem_rowIdxs hi).1 hj).2⟩,
        hdup (colIdxs i) fun j hj => ⟨Or.inr (Or.inl hj), ((mem_colIdxs hi).1 hj).2⟩,
        hdup (blockIdxs i) fun j hj => ⟨Or.inr (Or.inr hj), ((mem_blockIdxs hi).1 hj).2.2⟩]
        at hun
      refine ⟨(s.1.set i (.solved (hints.headD 0)), true), hun,
        by rw [List.length_set]; exact h81, fun k hk => ?_⟩
      by_cases hik : i = k
      · subst hik
        rw [getCell_set_self (by omega)]
        simp only [hintsOf, List.mem_singleton]
        exact hXv
      · rw [getCell_set_ne hik]
        exact hext k hk
  · rw [hc] at hun
    dsimp only at hun
    exact ⟨s, hun, h81, hext⟩

theorem pass2_fold_complete {X : Board} (hX : ValidComplete X) :
    ∀ (l : List Nat) (s : Board × Bool), (∀ i ∈ l, i < 81) → s.1.length = 81 →
      Extends X s.1 →
      ∃ r, List.foldlM pass2Step s l = .ok r ∧ r.1.length = 81 ∧ Extends X r.1 := by
  intro l
  induction l with
  | nil =>
    intro s _ h81 hext
    exact ⟨s, by rw [List.foldlM_nil]; rfl, h81, hext⟩
  | cons i rest ih =>
    intro s hl h81 hext
    obtain ⟨s', hstep, h81', hext'⟩ :=
      pass2Step_complete hX (hl i (List.mem_cons_self ..)) h81 hext
    obtain ⟨r, hfold, h81r, hextr⟩ :=
      ih s' (fun x hx => hl x (List.mem_cons_of_mem _ hx)) h81' hext'
    exact ⟨r, by rw [List.foldlM_cons, hstep, exceptBind_ok]; exact hfold, h81r, hextr⟩

theorem eliminateF_complete {X : Board} (hX : ValidComplete X) :
    ∀ (n : Nat) (b : Board) (fuel : Nat), countNS b ≤ n → n + 1 ≤ fuel →
      BoardWF b → NoConflicts b → Extends X b →
      ∃ b' flag, eliminateF fuel b = .ok (b', flag) ∧
        BoardWF b' ∧ NoConflicts b' ∧ Extends X b' := by
  intro n
  induction n with
  | zero =>
    intro b fuel hcnt hf hwf hnc hext
    match fuel, hf with
    | f + 1, _ =>
      have hall : allSolved (eliminatePass1 b) = true := by
        rw [allSolved_eliminatePass1]
        exact allSolved_of_countNS_zero (by omega)
      exact ⟨eliminatePass1 b, true, eliminateF_succ_done f (eliminateStep_all hall),
        eliminatePass1_boardWF hwf, eliminatePass1_noConflicts hnc,
        eliminatePass1_extends hX hext⟩
  | succ n ih =>
    intro b fuel hcnt hf hwf hnc hext
    match fuel, hf with
    | f + 1, _ =>
      have hwf1 : BoardWF (eliminatePass1 b) := eliminatePass1_boardWF hwf
      have hnc1 : NoConflicts (eliminatePass1 b) := eliminatePass1_noConflicts hnc
      have hext1 : Extends X (eliminatePass1 b) := eliminatePass1_extends hX hext
      by_cases hall : allSolved (eliminatePass1 b) = true
      · exact ⟨eliminatePass1 b, true, eliminateF_succ_done f (eliminateStep_all hall),
          hwf1, hnc1, hext1⟩
      · have hallf : allSolved (eliminatePass1 b) = false := eq_false_of_ne_true hall
        obtain ⟨⟨b2, ch2⟩, hfold, h81r, hextr⟩ :=
          pass2_fold_complete hX (List.range 81) (eliminatePass1 b, false)
            (fun i hi => List.mem_range.1 hi) hwf1.1 hext1
        have hp : eliminatePass2 (eliminatePass1 b) = .ok (b2, ch2) := by
          rw [eliminatePass2_eq]
          exact hfold
        obtain ⟨hwf2, hnc2⟩ :=
          pass2_fold_inv (List.range 81) (eliminatePass1 b, false) b2 ch2 hfold hwf1 hnc1
        cases ch2 with
        | false =>
          exact ⟨b2, false, eliminateF_succ_done f (eliminateStep_stall hallf hp),
            hwf2, hnc2, hextr⟩
        | true =>
          have hdec : countNS b2 < countNS (eliminatePass1 b) :=
            (eliminatePass2_struct hp).2.2.2 rfl
          rw [countNS_eliminatePass1] at hdec
          obtain ⟨b', flag, heq, hrest⟩ :=
            ih b2 f (by omega) (by omega) hwf2 hnc2 hextr
          exact ⟨b', flag, by
            rw [eliminateF_succ_continue f (eliminateStep_cont hallf hp)]
            exact heq, hrest⟩

theorem eliminate_complete {X b : Board} (hX : ValidComplete X) (hwf : BoardWF b)
    (hnc : NoConflicts b) (hext : Extends X b) :
    ∃ b' flag, eliminate b = .ok (b', flag) ∧
      BoardWF b' ∧ NoConflicts b' ∧ Extends X b' := by
  rw [eliminate_def]
  refine eliminateF_complete hX 81 b 82 ?_ (by omega) hwf hnc hext
  have := countNS_le_length b
  have := hwf.1
  omega

theorem tryHints_complete {f : Board → Except String Board} {b : Board} {i : Nat} :
    ∀ hints : List Nat, (∃ hint ∈ hints, ∃ S, f (b.set i (.solved hint)) = .ok S) →
      ∃ S, tryHints f b i hints = .ok S := by
  intro hints
  induction hints with
  | nil =>
    rintro ⟨x, hx, _⟩
    cases hx
  | cons h rest ih =>
    rintro ⟨x, hx, S, hS⟩
    rcases hres : f (b.set i (.solved h)) with msg | S0
    · rcases List.mem_cons.1 hx with rfl | hx2
      · rw [hres] at hS
        cases hS
      · obtain ⟨S', hS'⟩ := ih ⟨x, hx2, S, hS⟩
        exact ⟨S', by rw [tryHints_cons_error hres]; exact hS'⟩
    · exact ⟨S0, tryHints_cons_ok hres⟩

theorem solveF_complete {X : Board} (hX : ValidComplete X) :
    ∀ (n : Nat) (b : Board) (fuel : Nat), countNS b ≤ n → 2 * n + 2 ≤ fuel →
      BoardWF b → NoConflicts b → Extends X b → ∃ S, solveF fuel b = .ok S := by
  intro n
  induction n with
  | zero =>
    intro b fuel hcnt hfuel hwf hnc hext
    match fuel, hfuel with
    | f + 1, _ =>
      have hall : allSolved b = true := allSolved_of_countNS_zero (by omega)
      exact ⟨b, solveF_succ_solved f (eliminate_of_allSolved hall)⟩
  | succ n ih =>
    intro b fuel hcnt hfuel hwf hnc hext
    match fuel, hfuel with
    | f + 1, _ =>
      obtain ⟨b1, flag, he, hwf1, hnc1, hext1⟩ := eliminate_complete hX hwf hnc hext
      cases flag with
      | true => exact ⟨b1, solveF_succ_solved f he⟩
      | false =>
        rw [solveF_succ_stall f he]
        have hallf : allSolved b1 = false := ((eliminate_ok_spec he).2.2.2 rfl).1
        rcases hsel : selectCell b1 with _ | ⟨i, hints⟩
        · exfalso
          have := allSolved_of_forall_mem (selectCell_none_iff.1 hsel)
          rw [hallf] at this
          cases this
        · rw [dfsWith_some _ hsel]
          have hcell := (selectCell_some_spec hsel).1
          have hi81 : i < 81 := by
            have := lt_length_of_notSolved hcell
            have := hwf1.1
            omega
          have hXmem : cellVal (getCell X i) ∈ hints := by
            have := hext1 i hi81
            rw [hcell] at this
            simpa [hintsOf] using this
          have hexc : Excluded b1 := eliminate_ok_excluded hwf he
          refine tryHints_complete hints ⟨cellVal (getCell X i), hXmem, ?_⟩
          have hcntle : countNS b1 ≤ countNS b := (eliminate_ok_spec he).2.1
          have hcntset := countNS_set_solved (v := cellVal (getCell X i)) hcell
          exact ih (b1.set i (.solved (cellVal (getCell X i)))) f (by omega) (by omega)
            (set_solved_boardWF hcell hXmem hwf1)
            (set_solved_noConflicts_of_excluded hcell hXmem hwf1.1 hnc1 hexc)
            (extends_set (lt_length_of_notSolved hcell) hext1)

theorem solve_complete {X b : Board} (hX : ValidComplete X) (hwf : BoardWF b)
    (hnc : NoConflicts b) (hext : Extends X b) : ∃ S, solve b = .ok S := by
  rw [solve_def]
  refine solveF_complete hX 81 b 164 ?_ (by omega) hwf hnc hext
  have := countNS_le_length b
  have := hwf.1
  omega

theorem solves_complete_unique {b : Board} (hall : allSolved b = true)
    (h81 : b.length = 81) : ∀ Y, Solves Y b → Y = b := by
  intro Y hY
  have hlY : Y.length = 81 := hY.1.1
  refine List.ext_getElem (by rw [hlY, h81]) fun n h1 h2 => ?_
  rw [getElem_eq_getCell h1, getElem_eq_getCell h2]
  have hn81 : n < 81 := by omega
  have hsY := allSolved_iff.1 hY.1.2.1 n hn81
  have hsb := allSolved_iff.1 hall n hn81
  have hval : cellVal (getCell Y n) = cellVal (getCell b n) :=
    extends_val_eq hY.2 hn81 (solved_of_isSolved hsb)
  rw [solved_of_isSolved hsY, solved_of_isSolved hsb, hval]

/-! ## Rows, columns and blocks of a full solution each hold 1..9 once -/

theorem peer_of_mem_rowIdxs {i j k : Nat} (hi : i < 81) (hj : j ∈ rowIdxs i)
    (hk : k ∈ rowIdxs i) : Peer j k := by
  have hj' := (mem_rowIdxs hi).1 hj
  have hk' := (mem_rowIdxs hi).1 hk
  exact Or.inl ((mem_rowIdxs (show j < 81 by omega)).2 ⟨by omega, hk'.2⟩)

theorem peer_of_mem_colIdxs {i j k : Nat} (hi : i < 81) (hj : j ∈ colIdxs i)
    (hk : k ∈ colIdxs i) : Peer j k := by
  have hj' := (mem_colIdxs hi).1 hj
  have hk' := (mem_colIdxs hi).1 hk
  exact Or.inr (Or.inl ((mem_colIdxs (show j < 81 by omega)).2 ⟨by omega, hk'.2⟩))

theorem peer_of_mem_blockIdxs {i j k : Nat} (hi : i < 81) (hj : j ∈ blockIdxs i)
    (hk : k ∈ blockIdxs i) : Peer j k := by
  have hj' := (mem_blockIdxs hi).1 hj
  have hk' := (mem_blockIdxs hi).1 hk
  exact Or.inr (Or.inr ((mem_blockIdxs (show j < 81 by omega)).2
    ⟨by omega, by omega, hk'.2.2⟩))

theorem unit_facts :
    ∀ i < 81, ((rowIdxs i).Nodup ∧ (rowIdxs i).length = 9) ∧
      ((colIdxs i).Nodup ∧ (colIdxs i).length = 9) ∧
      ((blockIdxs i).Nodup ∧ (blockIdxs i).length = 9) := by decide

theorem unit_perm {S : Board} (hwf : BoardWF S) (hnc : NoConflicts S)
    (hall : allSolved S = true) {idxs : List Nat} (hnd : idxs.Nodup)
    (hlen : idxs.length = 9) (h81 : ∀ j ∈ idxs, j < 81)
    (hpeers : ∀ j ∈ idxs, ∀ k ∈ idxs, j ≠ k → Peer j k) :
    (unitVals S idxs).Perm (List.range' 1 9) := by
  have hsub : ∀ v ∈ unitVals S idxs, v ∈ List.range' 1 9 := by
    intro v hv
    obtain ⟨j, hj, rfl⟩ := List.mem_map.1 hv
    have hj81 := h81 j hj
    have hsol := allSolved_iff.1 hall j hj81
    have hrange := (hwf.2 j hj81).2 (cellVal (getCell S j))
    rw [solved_of_isSolved hsol] at hrange
    have hcv : ∀ x : Nat, cellVal (Cell.solved x) = x := fun x => rfl
    rw [hcv] at hrange
    have hr := hrange (by simp [hintsOf])
    rw [List.mem_range'_1]
    omega
  have hndv : (unitVals S idxs).Nodup := by
    refine List.Nodup.map_on ?_ hnd
    intro x hx y hy heq
    by_contra hne
    refine hnc x (h81 x hx) y (h81 y hy) hne (hpeers x hx y hy hne)
      (allSolved_iff.1 hall x (h81 x hx)) ?_
    rw [solved_of_isSolved (allSolved_iff.1 hall x (h81 x hx)),
      solved_of_isSolved (allSolved_iff.1 hall y (h81 y hy)), heq]
  have hlenv : (unitVals S idxs).length = 9 := by
    rw [unitVals, List.length_map, hlen]
  exact (List.subperm_of_subset hndv hsub).perm_of_length_le
    (by rw [hlenv, List.length_range'])

/-- **C1**: for an 81-cell input board that is a well-formed Sudoku puzzle
admitting a unique solution, `solve` returns `Ok` with a board in which
every cell is `Solved` and every row, column and 3×3 block holds each value
`1..9` exactly once. -/
theorem solve_unique_solution_correct {b X : Board} (hwf : BoardWF b)
    (hX : Solves X b) (huniq : ∀ Y, Solves Y b → Y = X) :
    ∃ S, solve b = .ok S ∧ allSolved S = true ∧
      ∀ i < 81, (unitVals S (rowIdxs i)).Perm (List.range' 1 9) ∧
        (unitVals S (colIdxs i)).Perm (List.range' 1 9) ∧
        (unitVals S (blockIdxs i)).Perm (List.range' 1 9) := by
  have hnc : NoConflicts b := noConflicts_of_solves hX hwf.1
  obtain ⟨S, hok⟩ := solve_complete hX.1 hwf hnc hX.2
  have hall : allSolved S = true := by
    rw [solve_def] at hok
    exact solveF_ok_allSolved 164 b S hok
  have hSinv := solve_ok_inv hok hwf hnc
  refine ⟨S, hok, hall, fun i hi => ?_⟩
  obtain ⟨⟨hrn, hrl⟩, ⟨hcn, hcl⟩, ⟨hbn, hbl⟩⟩ := unit_facts i hi
  exact ⟨unit_perm hSinv.1 hSinv.2 hall hrn hrl
      (fun j hj => ((mem_rowIdxs hi).1 hj).2)
      (fun j hj k hk _ => peer_of_mem_rowIdxs hi hj hk),
    unit_perm hSinv.1 hSinv.2 hall hcn hcl
      (fun j hj => ((mem_colIdxs hi).1 hj).2)
      (fun j hj k hk _ => peer_of_mem_colIdxs hi hj hk),
    unit_perm hSinv.1 hSinv.2 hall hbn hbl
      (fun j hj => ((mem_blockIdxs hi).1 hj).2.2)
      (fun j hj k hk _ => peer_of_mem_blockIdxs hi hj hk)⟩

/-! ## A cell-by-cell description of the solved-scan

`eliminatePass1` folds 81 whole-board steps; on concrete boards the direct
evaluation of that fold is expensive, so the following lemmas restate its
result one cell at a time (`pass1CellSpec`), which evaluates cheaply. -/

theorem getCell_eraseHints_at :
    ∀ (idxs : List Nat) {b : Board} {i : Nat} {h : List Nat}, idxs.Nodup →
      getCell b i = .notSolved h → ∀ v,
      getCell (eraseHints b idxs v) i = .notSolved (eraseIf (i ∈ idxs) h v) := by
  intro idxs
  induction idxs with
  | nil =>
    intro b i h _ hc v
    simpa [eraseIf] using hc
  | cons j rest ih =>
    intro b i h hnd hc v
    have hstep : eraseHints b (j :: rest) v = eraseHints (eraseHint b j v) rest v := by
      unfold eraseHints
      rw [List.foldl_cons]
    rw [hstep]
    rcases eq_or_ne j i with rfl | hne
    · have hmid : getCell (eraseHint b j v) j = .notSolved (h.erase v) :=
        getCell_eraseHint_self hc
      have hnotin : j ∉ rest := (List.nodup_cons.1 hnd).1
      rw [ih (List.Nodup.of_cons hnd) hmid v]
      simp [eraseIf, hnotin]
    · have hmid : getCell (eraseHint b j v) i = getCell b i := by
        unfold eraseHint
        rcases hcj : getCell b j with hj | u
        · rw [getCell_set_ne hne]
        · rfl
      rw [ih (List.Nodup.of_cons hnd) (hmid.trans hc) v]
      have hne2 : ¬ i = j := fun he => hne he.symm
      simp [eraseIf, List.mem_cons, hne2]

theorem getCell_pass1Step_at {b : Board} {i k : Nat} {h : List Nat} (hk : k < 81)
    (hc : getCell b i = .notSolved h) :
    getCell (pass1Step b k) i = .notSolved (pass1CellStep b i h k) := by
  obtain ⟨⟨hrn, _⟩, ⟨hcn, _⟩, ⟨hbn, _⟩⟩ := unit_facts k hk
  unfold pass1Step pass1CellStep
  rcases hck : getCell b k with h0 | v
  · exact hc
  · exact getCell_eraseHints_at (blockIdxs k) hbn
      (getCell_eraseHints_at (colIdxs k) hcn
        (getCell_eraseHints_at (rowIdxs k) hrn hc v) v) v

theorem pass1CellStep_congr {b b1 : Board}
    (hiso : ∀ j, (getCell b1 j).isSolved = (getCell b j).isSolved)
    (hval : ∀ j v, getCell b j = .solved v → getCell b1 j = .solved v)
    (i : Nat) (acc : List Nat) (j : Nat) :
    pass1CellStep b1 i acc j = pass1CellStep b i acc j := by
  unfold pass1CellStep
  rcases hc : getCell b j with h0 | v
  · rcases hc1 : getCell b1 j with h1 | u
    · rfl
    · exfalso
      have := hiso j
      rw [hc, hc1] at this
      simp [Cell.isSolved] at this
  · rw [hval j v hc]

theorem pass1Cell_congr {b b1 : Board}
    (hiso : ∀ j, (getCell b1 j).isSolved = (getCell b j).isSolved)
    (hval : ∀ j v, getCell b j = .solved v → getCell b1 j = .solved v) (i : Nat) :
    ∀ (l : List Nat) (acc : List Nat), pass1Cell b1 i acc l = pass1Cell b i acc l := by
  intro l
  induction l with
  | nil => intro acc; rfl
  | cons j rest ih =>
    intro acc
    show pass1Cell b1 i (pass1CellStep b1 i acc j) rest =
      pass1Cell b i (pass1CellStep b i acc j) rest
    rw [pass1CellStep_congr hiso hval i acc j]
    exact ih _

theorem getCell_foldl_pass1_at :
    ∀ (l : List Nat) (b : Board) (i : Nat) (h : List Nat), (∀ j ∈ l, j < 81) →
      getCell b i = .notSolved h →
      getCell (List.foldl pass1Step b l) i = .notSolved (pass1Cell b i h l) := by
  intro l
  induction l with
  | nil => intro b i h _ hc; exact hc
  | cons k rest ih =>
    intro b i h hl hc
    rw [List.foldl_cons]
    have hstep := getCell_pass1Step_at (hl k (List.mem_cons_self ..)) hc
    rw [ih (pass1Step b k) i _ (fun j hj => hl j (List.mem_cons_of_mem _ hj)) hstep,
      pass1Cell_congr (fun j => isSolved_pass1Step b k j)
        (fun j v hv => ((pass1Step_shrinks b k).2 j).1 v hv) i rest (pass1CellStep b i h k)]
    rfl

theorem eliminatePass1_eq_of_cells {b P : Board} (hlb : b.length = 81)
    (hlP : P.length = 81) (hcells : ∀ i < 81, getCell P i = pass1CellSpec b i) :
    eliminatePass1 b = P := by
  rw [eliminatePass1_eq]
  have hlen : (List.foldl pass1Step b (List.range 81)).length = 81 := by
    rw [(foldl_shrinks pass1Step_shrinks _ b).1, hlb]
  refine List.ext_getElem (by rw [hlen, hlP]) fun n h1 h2 => ?_
  rw [getElem_eq_getCell h1, getElem_eq_getCell h2]
  have hn : n < 81 := by rw [hlen] at h1; exact h1
  rw [hcells n hn]
  unfold pass1CellSpec
  rcases hc : getCell b n with h | v
  · exact getCell_foldl_pass1_at (List.range 81) b n h (fun j hj => List.mem_range.1 hj) hc
  · exact ((foldl_shrinks pass1Step_shrinks _ b).2 n).1 v hc

theorem noConflicts_of_units {S : Board}
    (h : ∀ i < 81, (unitVals S (rowIdxs i)).Nodup ∧ (unitVals S (colIdxs i)).Nodup ∧
      (unitVals S (blockIdxs i)).Nodup) : NoConflicts S := by
  intro i hi j hj hne hpeer hsol heq
  have hval : cellVal (getCell S i) = cellVal (getCell S j) := by rw [heq]
  rcases hpeer with hm | hm | hm
  · exact hne (List.inj_on_of_nodup_map (h i hi).1
      ((mem_rowIdxs hi).2 ⟨rfl, hi⟩) hm hval)
  · exact hne (List.inj_on_of_nodup_map (h i hi).2.1
      ((mem_colIdxs hi).2 ⟨rfl, hi⟩) hm hval)
  · exact hne (List.inj_on_of_nodup_map (h i hi).2.2
      ((mem_blockIdxs hi).2 ⟨rfl, rfl, hi⟩) hm hval)

/-! ## Concrete witnesses and counterexamples

The loop-level definitions are made evaluable again so that the solver can
be run on the boards defined above. -/

set_option allowUnsafeReducibility true in
attribute [semireducible] eliminatePass1 allSolved eliminatePass2 eliminateStep

set_option allowUnsafeReducibility true in
attribute [semireducible] eliminateF eliminate solveF solve depth_first_search

set_option maxRecDepth 100000
set_option maxHeartbeats 4000000

theorem dupBoard_allSolved : allSolved dupBoard = true := by decide

theorem mrvBoard_pass1 : eliminatePass1 mrvBoard = mrvBoard :=
  eliminatePass1_eq_of_cells (by decide) (by decide) (by decide)

theorem mrvBoard_eliminate : eliminate mrvBoard = .ok (mrvBoard, false) := by
  have hall : allSolved (eliminatePass1 mrvBoard) = false := by
    rw [mrvBoard_pass1]
    decide
  have hp : eliminatePass2 (eliminatePass1 mrvBoard) = .ok (mrvBoard, false) := by
    rw [mrvBoard_pass1]
    decide
  rw [eliminate_def, show (82 : Nat) = 81 + 1 from rfl]
  exact eliminateF_succ_done 81 (eliminateStep_stall hall hp)

/-- C2 counterexample: a fully `Solved` board with two identical fixed `5`s
on row peers (cells 0 and 1) is accepted by `solve` unchanged — no
duplicate-conflict error is raised, contrary to the claim. -/
theorem solve_duplicate_fixed_counterexample :
    getCell dupBoard 0 = .solved 5 ∧ getCell dupBoard 1 = .solved 5 ∧
      (0 : Nat) ≠ 1 ∧ Peer 0 1 ∧ solve dupBoard = .ok dupBoard :=
  ⟨by decide, by decide, by decide, by decide, solve_of_allSolved dupBoard_allSolved⟩

theorem solve_duplicate_fixed_preserved_witness :
    getCell dupBoard 0 = .solved 5 ∧ getCell dupBoard 1 = .solved 5 :=
  @solve_duplicate_fixed_preserved dupBoard dupBoard 0 1 5 (by decide) (by decide)
    (by decide) (by decide) (solve_of_allSolved dupBoard_allSolved)

/-- C3 counterexample: the specification's example input string holds only
78 digit characters, so the run fails at the input boundary with the
invalid-data error and never reaches the solver; the stated completion
string moreover differs from the true completion of the canonical puzzle. -/
theorem end_to_end_example_counterexample :
    openBytes (strDigits specInputStr) = some (.error ()) ∧
      (extractDigits (strDigits specInputStr)).length = 78 ∧
      specSolStr ≠ canonSolStr :=
  ⟨by decide, by decide, by decide⟩

theorem canonSolBoard_allSolved : allSolved canonSolBoard = true := by decide

theorem solve_idempotent_witness : solve canonSolBoard = .ok canonSolBoard :=
  @solve_idempotent canonSolBoard canonSolBoard (solve_of_allSolved canonSolBoard_allSolved)

theorem solve_orchestration_witness :
    eliminate canonSolBoard = .ok (canonSolBoard, true) ∧
      solve canonSolBoard = .ok canonSolBoard :=
  ⟨eliminate_of_allSolved canonSolBoard_allSolved,
    (solve_orchestration canonSolBoard (by decide)).1 canonSolBoard
      (eliminate_of_allSolved canonSolBoard_allSolved)⟩

theorem solved_cells_never_modified_witness : getCell canonSolBoard 0 = .solved 5 :=
  (solved_cells_never_modified canonSolBoard).1 canonSolBoard
    (solve_of_allSolved canonSolBoard_allSolved) 0 5 (by decide)

theorem solve_allSolved_unchanged_witness : solve dupBoard = .ok dupBoard :=
  solve_allSolved_unchanged dupBoard_allSolved

theorem dfs_selects_mrv_ascending_witness :
    ∃ i h, selectCell mrvBoard = some (i, h) ∧
      getCell mrvBoard i = .notSolved h ∧
      (∀ j h2, getCell mrvBoard j = .notSolved h2 → h.length ≤ h2.length) ∧
      (∀ j h2, j < i → getCell mrvBoard j = .notSolved h2 → h.length < h2.length) ∧
      List.Sorted (· < ·) h ∧
      depth_first_search mrvBoard = tryHints (solveF 164) mrvBoard i h :=
  @dfs_selects_mrv_ascending mrvBoard 0 [1, 2, 3] (by decide) (by decide)

theorem eliminate_excluded_witness : Excluded mrvBoard :=
  @eliminate_excluded mrvBoard mrvBoard false (by decide) mrvBoard_eliminate

theorem open_boundary_spec_witness :
    openBytes (strDigits canonInputStr) =
      some (.ok ((extractDigits (strDigits canonInputStr)).map fun d =>
        if d = 0 then Cell.notSolved (List.range' 1 9) else Cell.solved d)) :=
  (open_boundary_spec (strDigits canonInputStr)).2.2.1 (by decide)

theorem solve_unique_solution_correct_witness :
    ∃ S, solve canonSolBoard = .ok S ∧ allSolved S = true ∧
      ∀ i < 81, (unitVals S (rowIdxs i)).Perm (List.range' 1 9) ∧
        (unitVals S (colIdxs i)).Perm (List.range' 1 9) ∧
        (unitVals S (blockIdxs i)).Perm (List.range' 1 9) :=
  @solve_unique_solution_correct canonSolBoard canonSolBoard (by decide)
    ⟨⟨by decide, canonSolBoard_allSolved, noConflicts_of_units (by decide), by decide⟩,
      by decide⟩
    (solves_complete_unique canonSolBoard_allSolved (by decide))

theorem canonStep1 : eliminateStep cB0 = .ok (.inr qB1) := by
  have hp1 : eliminatePass1 cB0 = pB1 :=
    eliminatePass1_eq_of_cells (by decide) (by decide) (by decide)
  have hall : allSolved (eliminatePass1 cB0) = false := by
    rw [hp1]
    decide
  have hp2 : eliminatePass2 (eliminatePass1 cB0) = .ok (qB1, true) := by
    rw [hp1]
    decide
  exact eliminateStep_cont hall hp2

theorem canonStep2 : eliminateStep qB1 = .ok (.inr qB2) := by
  have hp1 : eliminatePass1 qB1 = pB2 :=
    eliminatePass1_eq_of_cells (by decide) (by decide) (by decide)
  have hall : allSolved (eliminatePass1 qB1) = false := by
    rw [hp1]
    decide
  have hp2 : eliminatePass2 (eliminatePass1 qB1) = .ok (qB2, true) := by
    rw [hp1]
    decide
  exact eliminateStep_cont hall hp2

theorem canonStep3 : eliminateStep qB2 = .ok (.inr qB3) := by
  have hp1 : eliminatePass1 qB2 = pB3 :=
    eliminatePass1_eq_of_cells (by decide) (by decide) (by decide)
  have hall : allSolved (eliminatePass1 qB2) = false := by
    rw [hp1]
    decide
  have hp2 : eliminatePass2 (eliminatePass1 qB2) = .ok (qB3, true) := by
    rw [hp1]
    decide
  exact eliminateStep_cont hall hp2

theorem canonStep4 : eliminateStep qB3 = .ok (.inr qB4) := by
  have hp1 : eliminatePass1 qB3 = pB4 :=
    eliminatePass1_eq_of_cells (by decide) (by decide) (by decide)
  have hall : allSolved (eliminatePass1 qB3) = false := by
    rw [hp1]
    decide
  have hp2 : eliminatePass2 (eliminatePass1 qB3) = .ok (qB4, true) := by
    rw [hp1]
    decide
  exact eliminateStep_cont hall hp2

theorem canonStep5 : eliminateStep qB4 = .ok (.inr qB5) := by
  have hp1 : eliminatePass1 qB4 = pB5 :=
    eliminatePass1_eq_of_cells (by decide) (by decide) (by decide)
  have hall : allSolved (eliminatePass1 qB4) = false := by
    rw [hp1]
    decide
  have hp2 : eliminatePass2 (eliminatePass1 qB4) = .ok (qB5, true) := by
    rw [hp1]
    decide
  exact eliminateStep_cont hall hp2

theorem canonStep6 : eliminateStep qB5 = .ok (.inr qB6) := by
  have hp1 : eliminatePass1 qB5 = pB6 :=
    eliminatePass1_eq_of_cells (by decide) (by decide) (by decide)
  have hall : allSolved (eliminatePass1 qB5) = false := by
    rw [hp1]
    decide
  have hp2 : eliminatePass2 (eliminatePass1 qB5) = .ok (qB6, true) := by
    rw [hp1]
    decide
  exact eliminateStep_cont hall hp2

theorem canonStep7 : eliminateStep qB6 = .ok (.inr qB7) := by
  have hp1 : eliminatePass1 qB6 = pB7 :=
    eliminatePass1_eq_of_cells (by decide) (by decide) (by decide)
  have hall : allSolved (eliminatePass1 qB6) = false := by
    rw [hp1]
    decide
  have hp2 : eliminatePass2 (eliminatePass1 qB6) = .ok (qB7, true) := by
    rw [hp1]
    decide
  exact eliminateStep_cont hall hp2

theorem canonStep8 : eliminateStep qB7 = .ok (.inr qB8) := by
  have hp1 : eliminatePass1 qB7 = pB8 :=
    eliminatePass1_eq_of_cells (by decide) (by decide) (by decide)
  have hall : allSolved (eliminatePass1 qB7) = false := by
    rw [hp1]
    decide
  have hp2 : eliminatePass2 (eliminatePass1 qB7) = .ok (qB8, true) := by
    rw [hp1]
    decide
  exact eliminateStep_cont hall hp2

theorem canonStep9 : eliminateStep qB8 = .ok (.inr qB9) := by
  have hp1 : eliminatePass1 qB8 = pB9 :=
    eliminatePass1_eq_of_cells (by decide) (by decide) (by decide)
  have hall : allSolved (eliminatePass1 qB8) = false := by
    rw [hp1]
    decide
  have hp2 : eliminatePass2 (eliminatePass1 qB8) = .ok (qB9, true) := by
    rw [hp1]
    decide
  exact eliminateStep_cont hall hp2

theorem canonStep10 : eliminateStep qB9 = .ok (.inr qB10) := by
  have hp1 : eliminatePass1 qB9 = pB10 :=
    eliminatePass1_eq_of_cells (by decide) (by decide) (by decide)
  have hall : allSolved (eliminatePass1 qB9) = false := by
    rw [hp1]
    decide
  have hp2 : eliminatePass2 (eliminatePass1 qB9) = .ok (qB10, true) := by
    rw [hp1]
    decide
  exact eliminateStep_cont hall hp2

theorem canonStep11 : eliminateStep qB10 = .ok (.inl (qB10, true)) := by
  have hallq : allSolved qB10 = true := by decide
  have h := eliminateStep_all (b := qB10)
    (by rw [eliminatePass1_of_allSolved hallq]; exact hallq)
  rwa [eliminatePass1_of_allSolved hallq] at h

theorem eliminate_canonBoard : eliminate canonBoard = .ok (canonSolBoard, true) := by
  have hc0 : canonBoard = cB0 := by decide
  have hsol : qB10 = canonSolBoard := by decide
  rw [hc0, eliminate_def]
  rw [show (82 : Nat) = 81 + 1 from rfl, eliminateF_succ_continue 81 canonStep1]
  rw [show (81 : Nat) = 80 + 1 from rfl, eliminateF_succ_continue 80 canonStep2]
  rw [show (80 : Nat) = 79 + 1 from rfl, eliminateF_succ_continue 79 canonStep3]
  rw [show (79 : Nat) = 78 + 1 from rfl, eliminateF_succ_continue 78 canonStep4]
  rw [show (78 : Nat) = 77 + 1 from rfl, eliminateF_succ_continue 77 canonStep5]
  rw [show (77 : Nat) = 76 + 1 from rfl, eliminateF_succ_continue 76 canonStep6]
  rw [show (76 : Nat) = 75 + 1 from rfl, eliminateF_succ_continue 75 canonStep7]
  rw [show (75 : Nat) = 74 + 1 from rfl, eliminateF_succ_continue 74 canonStep8]
  rw [show (74 : Nat) = 73 + 1 from rfl, eliminateF_succ_continue 73 canonStep9]
  rw [show (73 : Nat) = 72 + 1 from rfl, eliminateF_succ_continue 72 canonStep10]
  rw [show (72 : Nat) = 71 + 1 from rfl, eliminateF_succ_done 71 canonStep11, hsol]

/-- C3 (amended): the specification's example input string fails at the
input boundary (78 digits); on the full 81-digit canonical input, `open`
accepts the stream and `solve` produces exactly the canonical completion,
by elimination alone. -/
theorem end_to_end_example_amended :
    openBytes (strDigits canonInputStr) = some (.ok canonBoard) ∧
      solve canonBoard = .ok canonSolBoard := by
  constructor
  · decide
  · rw [solve_def, show (164 : Nat) = 163 + 1 from rfl]
    exact solveF_succ_solved 163 eliminate_canonBoard
